import Mathlib

/-!
# Verification of the EliteHub seat reservation / booking engine

Shallow embedding of the Cloudflare-worker backend (`src/auth.js`) of the
elitetransportghana/elitehub repository: the seat-key normalizer, the trip
resolver, the seat-availability engine, the seat-lock manager, the booking
finalizer, the payment webhook receiver and the e-mail sign-up handler, each
translated into a pure Lean function over an explicit database state.
Timestamps are integers (`datetime` comparisons become integer comparisons),
SQL tables become lists of rows, and outbound I/O (payment verify, receipt
service, SMS) becomes explicit parameters / effect lists.
-/

namespace EliteHub

/-! ## Decimal digit strings

JavaScript's `String(n)` for a non-negative integer and `Number(s)` on a digit
string are modelled by `natToString` / `digitsToNat`.
-/

/-- The character for a single decimal digit `d` (`d < 10`): codepoints 48–57. -/
def digitChar (d : Nat) : Char := Char.ofNat (48 + d)

/-- Numeric value of a list of decimal digit characters, as computed by
JavaScript's `Number` on an all-digit string (leading zeros are irrelevant). -/
def digitsToNat (cs : List Char) : Nat :=
  cs.foldl (fun a c => a * 10 + (c.toNat - 48)) 0

/-- Fuel-driven helper for `natDigits` (structural recursion so that the
kernel can evaluate it). -/
def natDigitsAux : Nat → Nat → List Char
  | _, 0 => []
  | n, fuel + 1 =>
    if n < 10 then [digitChar n]
    else natDigitsAux (n / 10) fuel ++ [digitChar (n % 10)]

/-- The decimal digit characters of `n`, most significant first. -/
def natDigits (n : Nat) : List Char := natDigitsAux n (n + 1)

/-- JavaScript's `String(n)` for a natural number. -/
def natToString (n : Nat) : String := String.mk (natDigits n)

theorem natDigitsAux_congr :
    ∀ f₁ f₂ n, n < f₁ → n < f₂ → natDigitsAux n f₁ = natDigitsAux n f₂ := by
  intro f₁
  induction f₁ with
  | zero => omega
  | succ g ih =>
    intro f₂ n h₁ h₂
    match f₂, h₂ with
    | f + 1, h₂ =>
      show (if n < 10 then _ else _) = (if n < 10 then _ else _)
      split
      · rfl
      · next h =>
        rw [ih f (n / 10)
          (by have hd : n / 10 < n := Nat.div_lt_self (by omega) (by omega); omega)
          (by have hd : n / 10 < n := Nat.div_lt_self (by omega) (by omega); omega)]

theorem natDigits_eq (n : Nat) :
    natDigits n = if n < 10 then [digitChar n]
      else natDigits (n / 10) ++ [digitChar (n % 10)] := by
  show (if n < 10 then _ else _) = _
  split
  · rfl
  · next h =>
    rw [natDigits, natDigitsAux_congr n (n / 10 + 1) (n / 10)
      (Nat.div_lt_self (by omega) (by omega))
      (Nat.lt_succ_self _)]

theorem toNat_digitChar {d : Nat} (h : d < 10) : (digitChar d).toNat = 48 + d := by
  interval_cases d <;> rfl

theorem isDigit_digitChar {d : Nat} (h : d < 10) : (digitChar d).isDigit = true := by
  interval_cases d <;> rfl

theorem digitsToNat_append_singleton (xs : List Char) (c : Char) :
    digitsToNat (xs ++ [c]) = 10 * digitsToNat xs + (c.toNat - 48) := by
  simp [digitsToNat, List.foldl_append, Nat.mul_comm]

theorem natDigits_ne_nil (n : Nat) : natDigits n ≠ [] := by
  rw [natDigits_eq]
  split <;> simp

theorem natDigits_all_isDigit (n : Nat) : ∀ c ∈ natDigits n, c.isDigit = true := by
  induction n using Nat.strong_induction_on with
  | _ n ih =>
    rw [natDigits_eq]
    split
    · next h => intro c hc; simp at hc; subst hc; exact isDigit_digitChar h
    · next h =>
      intro c hc
      simp at hc
      rcases hc with hc | hc
      · exact ih (n / 10) (Nat.div_lt_self (by omega) (by omega)) c hc
      · subst hc; exact isDigit_digitChar (Nat.mod_lt _ (by omega))

theorem digitsToNat_natDigits (n : Nat) : digitsToNat (natDigits n) = n := by
  induction n using Nat.strong_induction_on with
  | _ n ih =>
    rw [natDigits_eq]
    split
    · next h =>
      simp [digitsToNat, toNat_digitChar h]
    · next h =>
      rw [digitsToNat_append_singleton,
        ih (n / 10) (Nat.div_lt_self (by omega) (by omega)),
        toNat_digitChar (Nat.mod_lt _ (by omega))]
      omega

theorem natToString_injective : Function.Injective natToString := by
  intro a b hab
  have : (natToString a).data = (natToString b).data := by rw [hab]
  simp [natToString] at this
  calc a = digitsToNat (natDigits a) := (digitsToNat_natDigits a).symm
    _ = digitsToNat (natDigits b) := by rw [this]
    _ = b := digitsToNat_natDigits b

/-! ## Seat key normalizer (`normalizeSeatNumberRaw`, `canonicalSeatToLegacy`)

`normalizeSeatNumberRaw(seatValue, capacity)` in the source trims and
upper-cases the seat value, then tries the regex `^L?0*(\d+)$` (numeric seats
such as `"38"`, `"038"`, `"L38"`), then the regex `^([A-Z])0*(\d{1,2})$`
(legacy seats such as `"A1"`, `"B10"`, value `(row-letter − A)·10 + col`),
rejecting values outside `[1..capacity]` (capacity defaults to 50 when the
given capacity is 0/absent).
-/

/-- The whitespace characters removed by JavaScript `String.prototype.trim`
(ASCII whitespace plus NBSP and the BOM; other exotic space codepoints never
occur in seat keys). -/
def jsWhitespace (c : Char) : Bool :=
  c == ' ' || c == '\t' || c == '\n' || c == '\r' ||
  c == '\x0b' || c == '\x0c' || c == ' ' || c == '﻿'

/-- JavaScript `String.prototype.trim` on an explicit character list. -/
def jsTrim (cs : List Char) : List Char :=
  ((cs.dropWhile jsWhitespace).reverse.dropWhile jsWhitespace).reverse

/-- The value matched out of the trimmed, upper-cased seat key `raw`:
first the numeric regex `^L?0*(\d+)$` (an optional leading `L` followed by at
least one digit; the captured digits have the numeric value of the whole digit
block), then the legacy regex `^([A-Z])0*(\d{1,2})$` (a row letter, then
digits of which at most two may remain after the greedy `0*`), with the
source's `row < 0 || col < 1 || col > 10` guard.  The `[1..capacity]` range
check, common to both branches of the source, is applied by the caller
`normalizeSeatNumberRaw`. -/
def seatRawVal (raw : List Char) : Option Nat :=
  -- numeric seats: ^L?0*(\d+)$
  let body := match raw with
    | c :: rest => if c = 'L' then rest else raw
    | [] => raw
  if body ≠ [] ∧ body.all Char.isDigit then
    some (digitsToNat body)
  else
    -- legacy seats: ^([A-Z])0*(\d{1,2})$
    match raw with
    | c :: rest =>
      if ('A' ≤ c ∧ c ≤ 'Z') ∧ rest ≠ [] ∧ rest.all Char.isDigit ∧
          rest.length ≤ (rest.takeWhile (· = '0')).length + 2 then
        let row := c.toNat - 65
        let col := digitsToNat rest
        if col < 1 ∨ 10 < col then none
        else some (row * 10 + col)
      else none
    | [] => none

/-- The match step of `normalizeSeatNumberRaw`: trim, upper-case, and run the
two seat regexes.  Returns the matched numeric value before the capacity
range check. -/
def seatVal (s : String) : Option Nat :=
  seatRawVal ((jsTrim s.data).map Char.toUpper)

/-- `normalizeSeatNumberRaw(seatValue, capacity)` from the source: canonical
decimal seat string in `[1..capacity]`, or `none`.  A capacity of `0` models
the JavaScript falsy default (`capacity || 50`). -/
def normalizeSeatNumberRaw (seatValue : String) (capacity : Nat) : Option String :=
  let cap := if capacity = 0 then 50 else capacity
  match seatVal seatValue with
  | some n => if n < 1 ∨ cap < n then none else some (natToString n)
  | none => none

/-- The row letter of a canonical seat (`String.fromCharCode(65 + row)`). -/
def legacyRowChar (row : Nat) : Char := Char.ofNat (65 + row)

/-- JavaScript `Number` on the canonical seat strings that reach
`canonicalSeatToLegacy` (always all-digit strings produced by the
normalizer). -/
def parseNatDigits (s : String) : Option Nat :=
  if s.data ≠ [] ∧ s.data.all Char.isDigit then some (digitsToNat s.data) else none

/-- `canonicalSeatToLegacy(canonicalSeat)` from the source: maps canonical
seat `n ≥ 1` back to the legacy `<letter><col>` form with
`row = ⌊(n−1)/10⌋`, `col = ((n−1) mod 10) + 1`. -/
def canonicalSeatToLegacy (canonicalSeat : String) : Option String :=
  match parseNatDigits canonicalSeat with
  | none => none
  | some n =>
    if n < 1 then none
    else
      let row := (n - 1) / 10
      let col := (n - 1) % 10 + 1
      some (String.mk (legacyRowChar row :: natDigits col))

example : normalizeSeatNumberRaw "38" 50 = some "38" := by decide
example : normalizeSeatNumberRaw "038" 50 = some "38" := by decide
example : normalizeSeatNumberRaw "L38" 50 = some "38" := by decide
example : normalizeSeatNumberRaw "D8" 50 = some "38" := by decide
example : normalizeSeatNumberRaw "B10" 50 = some "20" := by decide
example : normalizeSeatNumberRaw "A0" 50 = none := by decide
example : normalizeSeatNumberRaw "51" 50 = none := by decide
example : normalizeSeatNumberRaw "a1" 50 = some "1" := by decide
example : normalizeSeatNumberRaw " 7 " 50 = some "7" := by decide
example : normalizeSeatNumberRaw "A100" 500 = none := by decide
example : normalizeSeatNumberRaw "A001" 50 = some "1" := by decide
example : canonicalSeatToLegacy "38" = some "D8" := by decide
example : canonicalSeatToLegacy "111" = some "L1" := by decide
example : normalizeSeatNumberRaw "L1" 120 = some "1" := by decide

/-! ### Lemmas about the seat key normalizer -/

theorem toNat_ofNat_of_valid {n : Nat} (h : n.isValidChar) :
    (Char.ofNat n).toNat = n := by
  rw [Char.ofNat, dif_pos h]; rfl

theorem toNat_ofNat_of_not_valid {n : Nat} (h : ¬ n.isValidChar) :
    (Char.ofNat n).toNat = 0 := by
  rw [Char.ofNat, dif_neg h]; rfl

theorem isDigit_iff_toNat {c : Char} :
    c.isDigit = true ↔ 48 ≤ c.toNat ∧ c.toNat ≤ 57 := by
  simp only [Char.isDigit, Bool.and_eq_true, decide_eq_true_eq, ge_iff_le,
    UInt32.le_def, BitVec.le_def]
  exact Iff.rfl

theorem isDigit_legacyRowChar (row : Nat) : (legacyRowChar row).isDigit = false := by
  rw [Bool.eq_false_iff]
  intro h
  rw [isDigit_iff_toNat] at h
  unfold legacyRowChar at h
  by_cases hv : (65 + row).isValidChar
  · rw [toNat_ofNat_of_valid hv] at h; omega
  · rw [toNat_ofNat_of_not_valid hv] at h; omega

theorem toUpper_of_isDigit {c : Char} (h : c.isDigit = true) : c.toUpper = c := by
  rw [isDigit_iff_toNat] at h
  unfold Char.toUpper
  rw [if_neg]
  omega

theorem digit_ne_L {c : Char} (h : c.isDigit = true) : c ≠ 'L' := by
  intro hL
  subst hL
  exact absurd h (by decide)

theorem jsWhitespace_eq_false_of_isDigit {c : Char} (h : c.isDigit = true) :
    jsWhitespace c = false := by
  rw [isDigit_iff_toNat] at h
  unfold jsWhitespace
  simp only [Bool.or_eq_false_iff, beq_eq_false_iff_ne, ne_eq]
  and_intros <;> (rintro rfl; revert h; decide)

theorem dropWhile_eq_self_of_all {p : Char → Bool} {l : List Char}
    (h : ∀ c ∈ l, p c = false) : l.dropWhile p = l := by
  cases l with
  | nil => rfl
  | cons a t =>
    rw [List.dropWhile_cons_of_neg]
    simp [h a (by simp)]

theorem jsTrim_of_all_isDigit {l : List Char}
    (h : ∀ c ∈ l, c.isDigit = true) : jsTrim l = l := by
  have hws : ∀ c ∈ l, jsWhitespace c = false :=
    fun c hc => jsWhitespace_eq_false_of_isDigit (h c hc)
  unfold jsTrim
  rw [dropWhile_eq_self_of_all hws,
    dropWhile_eq_self_of_all (fun c hc => hws c (List.mem_reverse.mp hc)),
    List.reverse_reverse]

theorem map_toUpper_of_all_isDigit {l : List Char}
    (h : ∀ c ∈ l, c.isDigit = true) : l.map Char.toUpper = l := by
  induction l with
  | nil => rfl
  | cons a t ih =>
    simp only [List.map_cons]
    rw [toUpper_of_isDigit (h a (by simp)), ih (fun c hc => h c (by simp [hc]))]

/-- Unfolding equation of `seatRawVal` on a nonempty list. -/
theorem seatRawVal_cons (c : Char) (t : List Char) :
    seatRawVal (c :: t) =
      if (if c = 'L' then t else c :: t) ≠ [] ∧
          (if c = 'L' then t else c :: t).all Char.isDigit then
        some (digitsToNat (if c = 'L' then t else c :: t))
      else if ('A' ≤ c ∧ c ≤ 'Z') ∧ t ≠ [] ∧ t.all Char.isDigit ∧
          t.length ≤ (t.takeWhile (· = '0')).length + 2 then
        if digitsToNat t < 1 ∨ 10 < digitsToNat t then none
        else some ((c.toNat - 65) * 10 + digitsToNat t)
      else none := rfl

theorem seatRawVal_all_digits {l : List Char} (hne : l ≠ [])
    (h : ∀ c ∈ l, c.isDigit = true) : seatRawVal l = some (digitsToNat l) := by
  obtain ⟨c, t, rfl⟩ := List.exists_cons_of_ne_nil hne
  rw [seatRawVal_cons, if_neg (digit_ne_L (h c (by simp)))]
  rw [if_pos ⟨by simp, by
    simp only [List.all_eq_true]
    exact fun x hx => h x hx⟩]

theorem seatVal_natToString (n : Nat) : seatVal (natToString n) = some n := by
  unfold seatVal
  show seatRawVal ((jsTrim (natDigits n)).map Char.toUpper) = some n
  rw [jsTrim_of_all_isDigit (natDigits_all_isDigit n),
    map_toUpper_of_all_isDigit (natDigits_all_isDigit n),
    seatRawVal_all_digits (natDigits_ne_nil n) (natDigits_all_isDigit n),
    digitsToNat_natDigits]

/-- Canonical seat strings already in `[1..capacity]` normalize to themselves. -/
theorem normalizeSeatNumberRaw_natToString {n cap : Nat} (h1 : 1 ≤ n)
    (h2 : n ≤ (if cap = 0 then 50 else cap)) :
    normalizeSeatNumberRaw (natToString n) cap = some (natToString n) := by
  unfold normalizeSeatNumberRaw
  rw [seatVal_natToString]
  simp only
  rw [if_neg (by omega)]

/-- Every successful normalization returns the canonical decimal string of a
value in `[1..capacity]` matched out of the input. -/
theorem normalizeSeatNumberRaw_eq_some {s t : String} {cap : Nat}
    (h : normalizeSeatNumberRaw s cap = some t) :
    ∃ n, seatVal s = some n ∧ 1 ≤ n ∧ n ≤ (if cap = 0 then 50 else cap) ∧
      t = natToString n := by
  unfold normalizeSeatNumberRaw at h
  cases hv : seatVal s with
  | none => rw [hv] at h; simp at h
  | some n =>
    rw [hv] at h
    simp only at h
    by_cases hr : n < 1 ∨ (if cap = 0 then 50 else cap) < n
    · rw [if_pos hr] at h; simp at h
    · rw [if_neg hr] at h
      exact ⟨n, rfl, by omega, by omega, (Option.some_injective _ h).symm⟩

theorem parseNatDigits_natToString (n : Nat) :
    parseNatDigits (natToString n) = some n := by
  unfold parseNatDigits
  rw [if_pos ⟨natDigits_ne_nil n, by
    simp only [List.all_eq_true]
    exact fun c hc => natDigits_all_isDigit n c hc⟩]
  show some (digitsToNat (natDigits n)) = some n
  rw [digitsToNat_natDigits]

/-- The legacy form produced for canonical seat `n ≥ 1`. -/
def legacyOf (n : Nat) : String :=
  String.mk (legacyRowChar ((n - 1) / 10) :: natDigits ((n - 1) % 10 + 1))

theorem canonicalSeatToLegacy_natToString {n : Nat} (h : 1 ≤ n) :
    canonicalSeatToLegacy (natToString n) = some (legacyOf n) := by
  unfold canonicalSeatToLegacy
  rw [parseNatDigits_natToString]
  simp only
  rw [if_neg (by omega)]
  rfl

/-- A canonical decimal seat string is never equal to a legacy seat string
(the latter starts with a row letter, not a digit). -/
theorem natToString_ne_legacyOf (n m : Nat) : natToString n ≠ legacyOf m := by
  intro h
  have hdata : natDigits n = legacyRowChar ((m - 1) / 10) :: natDigits ((m - 1) % 10 + 1) := by
    have := congrArg String.data h
    exact this
  have hhead : ∀ c ∈ natDigits n, c.isDigit = true := natDigits_all_isDigit n
  rw [hdata] at hhead
  have := hhead (legacyRowChar ((m - 1) / 10)) (by simp)
  rw [isDigit_legacyRowChar] at this
  exact absurd this (by simp)

set_option maxRecDepth 10000 in
/-- For seats up to 260 and outside the `L` row `[111..120]`, the value
matched out of the produced legacy form is the original seat. -/
theorem seatVal_legacyOf_of_bounds :
    ∀ n, n < 261 → 1 ≤ n → ¬(111 ≤ n ∧ n ≤ 120) →
      seatVal (legacyOf n) = some n := by decide

/-- C7 counterexample: the claim `normalizeSeatNumberRaw(canonicalSeatToLegacy(n),
capacity) = String(n)` for every `n ∈ [1..capacity]` fails at `capacity = 120`,
`n = 111`: the legacy form of seat 111 is `"L1"`, which the normalizer's
numeric rule `^L?0*(\d+)$` reads back as seat `"1"`, not `"111"`. -/
theorem legacyRoundTrip_counterexample :
    (canonicalSeatToLegacy (natToString 111)).bind
      (fun s => normalizeSeatNumberRaw s 120) ≠ some (natToString 111) := by
  decide

/-- C7 (amended): for every `n ∈ [1..capacity]` with `n ≤ 260` and `n` outside
the legacy `L` row `[111..120]`, normalizing the legacy form produced by
`canonicalSeatToLegacy` yields the decimal string of `n` back. -/
theorem legacyRoundTrip (capacity n : Nat) (h1 : 1 ≤ n) (h2 : n ≤ capacity)
    (h3 : n ≤ 260) (h4 : ¬(111 ≤ n ∧ n ≤ 120)) :
    (canonicalSeatToLegacy (natToString n)).bind
      (fun s => normalizeSeatNumberRaw s capacity) = some (natToString n) := by
  rw [canonicalSeatToLegacy_natToString h1]
  show normalizeSeatNumberRaw (legacyOf n) capacity = some (natToString n)
  unfold normalizeSeatNumberRaw
  rw [seatVal_legacyOf_of_bounds n (by omega) h1 h4]
  simp only
  have hcap : (if capacity = 0 then 50 else capacity) = capacity := by
    rw [if_neg]; omega
  rw [hcap, if_neg (by omega)]

/-- Witness for `legacyRoundTrip` at seat 38 on a 50-seat bus. -/
theorem legacyRoundTrip_witness :
    (1 ≤ 38 ∧ 38 ≤ 50 ∧ 38 ≤ 260 ∧ ¬(111 ≤ 38 ∧ 38 ≤ 120)) ∧
      (canonicalSeatToLegacy (natToString 38)).bind
        (fun s => normalizeSeatNumberRaw s 50) = some (natToString 38) :=
  ⟨by decide, legacyRoundTrip 50 38 (by decide) (by decide) (by decide) (by decide)⟩

/-! ## Data model

The D1 tables become lists of rows; `datetime` columns become integer
timestamps compared with `<`/`≤` exactly as SQLite compares the rendered
datetimes; SQL autoincrement ids are modelled by explicit `next…Id` counters.
-/

/-- A row of `routes`. -/
structure Route where
  id : Nat
  name : String
deriving DecidableEq

/-- A row of `buses`.  A `capacity` of `0` models a NULL/0 capacity column
(the source applies `capacity || 0` and falls back to 50). -/
structure Bus where
  id : Nat
  routeId : Option Nat
  name : String
  capacity : Nat
  availableSeats : Int
  price : Rat
deriving DecidableEq

/-- A row of `trip_schedules`. -/
structure Trip where
  id : Nat
  routeId : Nat
  busId : Nat
  price : Rat
  status : String
deriving DecidableEq

/-- A row of `passengers`. -/
structure Passenger where
  id : Nat
  firstName : String
  lastName : String
  email : String
  phone : String
  nokName : Option String
  nokPhone : Option String
deriving DecidableEq

/-- A row of `users` (the columns the embedded handlers read). -/
structure User where
  id : Nat
  email : String
  firstName : String
  lastName : String
  phone : String
  passwordHash : Option String
  authMethod : String
deriving DecidableEq

/-- A row of `auth_sessions`. -/
structure AuthSession where
  token : String
  userId : Nat
  expiresAt : Int
deriving DecidableEq

/-- A row of `bookings`. -/
structure Booking where
  id : Nat
  passengerId : Nat
  busId : Nat
  tripId : Option Nat
  seatNumber : String
  pricePaid : Rat
  status : String
  externalRef : String
deriving DecidableEq

/-- A row of `seat_locks`. -/
structure SeatLock where
  id : Nat
  busId : Nat
  tripId : Option Nat
  seatNumber : String
  lockedBy : String
  expiresAt : Int
deriving DecidableEq

/-- A row of `booking_receipts` (the `drive_file_id` column is never read by
the embedded handlers and is omitted). -/
structure Receipt where
  bookingId : Nat
  receiptUrl : String
deriving DecidableEq

/-- The D1 database bound as `DB`. -/
structure DB where
  routes : List Route
  buses : List Bus
  trips : List Trip
  passengers : List Passenger
  users : List User
  sessions : List AuthSession
  bookings : List Booking
  seatLocks : List SeatLock
  receipts : List Receipt
  nextBookingId : Nat
  nextPassengerId : Nat
  nextLockId : Nat
  nextUserId : Nat
deriving DecidableEq

/-- `COALESCE(trip_id, -1)` on an optional trip id. -/
def tripCoalesce : Option Nat → Int
  | some n => (n : Int)
  | none => -1

theorem tripCoalesce_eq_iff {a b : Option Nat} : tripCoalesce a = tripCoalesce b ↔ a = b := by
  cases a <;> cases b <;> simp [tripCoalesce]

theorem tripCoalesce_beq_iff {a b : Option Nat} :
    (tripCoalesce a == tripCoalesce b) = true ↔ a = b := by
  rw [beq_iff_eq, tripCoalesce_eq_iff]

/-- Stable insertion into a list sorted by the numeric key `val`
(models the comparison sort `(a, b) => Number(a) - Number(b)`). -/
def insertSortedBy (val : α → Nat) (x : α) : List α → List α
  | [] => [x]
  | y :: ys => if val x ≤ val y then x :: y :: ys else y :: insertSortedBy val x ys

/-- Sort a list by the numeric key `val`. -/
def sortedBy (val : α → Nat) (l : List α) : List α := l.foldr (insertSortedBy val) []

/-- The numeric value JavaScript's sort comparator computes for a canonical
seat string. -/
def seatSortVal (s : String) : Nat := digitsToNat s.data

/-- `uniqueNormalizedSeatList(rows, capacity)`: normalize every seat value,
deduplicate (the source collects into a `Set`), and sort numerically. -/
def uniqueNormalizedSeatList (rows : List String) (capacity : Nat) : List String :=
  sortedBy seatSortVal ((rows.filterMap (fun r => normalizeSeatNumberRaw r capacity)).dedup)

/-- `SELECT capacity FROM buses WHERE id = ?`. -/
def findBus (db : DB) (busId : Nat) : Option Bus :=
  db.buses.find? (fun b => b.id == busId)

/-- `getBusCapacity(env, busId)`: the bus's capacity, with fallback 50 when
the stored capacity is not positive; `Bus not found` when no row exists. -/
def getBusCapacity (db : DB) (busId : Nat) : Except String Nat :=
  match findBus db busId with
  | none => .error "Bus not found"
  | some bus => .ok (if bus.capacity > 0 then bus.capacity else 50)

/-- The most recent (largest id) active trip for a bus
(`ORDER BY id DESC LIMIT 1`). -/
def latestActiveTrip (db : DB) (busId : Nat) : Option Trip :=
  (db.trips.filter (fun t => t.busId == busId && t.status == "active")).foldl
    (fun acc t => match acc with
      | none => some t
      | some b => if b.id < t.id then some t else some b) none

/-- `resolveTripForBus(env, busId, tripId)`: an explicitly requested trip must
exist for this bus and be active; otherwise the most recent active trip for
the bus, or no trip at all (backward-compatible mode). -/
def resolveTripForBus (db : DB) (busId : Nat) (tripId : Option Nat) :
    Except String (Option Trip) :=
  match tripId with
  | some tid =>
    match db.trips.find? (fun t => t.id == tid && t.busId == busId) with
    | none => .error "Trip not found for bus"
    | some t => if t.status ≠ "active" then .error "Trip is not active" else .ok (some t)
  | none => .ok (latestActiveTrip db busId)

/-- The confirmed-bookings query of `listConfirmedSeatNumbersForBusTrip`:
with a trip, rows of that bus and trip; in trip-null mode, every confirmed
row of the bus. -/
def confirmedRowsForBusTrip (bookings : List Booking) (busId : Nat)
    (tripKey : Option Nat) : List Booking :=
  match tripKey with
  | some t => bookings.filter (fun b =>
      b.busId == busId && b.tripId == some t && b.status == "confirmed")
  | none => bookings.filter (fun b => b.busId == busId && b.status == "confirmed")

/-- `listConfirmedSeatNumbersForBusTrip`. -/
def listConfirmedSeatNumbersForBusTrip (bookings : List Booking) (busId : Nat)
    (tripKey : Option Nat) (capacity : Nat) : List String :=
  uniqueNormalizedSeatList
    ((confirmedRowsForBusTrip bookings busId tripKey).map (·.seatNumber)) capacity

/-- The unexpired-locks query (`datetime(expires_at) > datetime('now')`) of
`listActiveLocksForBusTrip`. -/
def activeLocksForBusTrip (locks : List SeatLock) (now : Int) (busId : Nat)
    (tripKey : Option Nat) : List SeatLock :=
  match tripKey with
  | some t => locks.filter (fun l =>
      l.busId == busId && l.tripId == some t && decide (now < l.expiresAt))
  | none => locks.filter (fun l => l.busId == busId && decide (now < l.expiresAt))

/-- `listActiveLockedSeatNumbersForBusTrip`. -/
def listActiveLockedSeatNumbersForBusTrip (locks : List SeatLock) (now : Int)
    (busId : Nat) (tripKey : Option Nat) (capacity : Nat) : List String :=
  uniqueNormalizedSeatList
    ((activeLocksForBusTrip locks now busId tripKey).map (·.seatNumber)) capacity

/-- `hasConfirmedSeat`. -/
def hasConfirmedSeat (bookings : List Booking) (busId : Nat) (tripKey : Option Nat)
    (seatKey : String) (capacity : Nat) : Bool :=
  (listConfirmedSeatNumbersForBusTrip bookings busId tripKey capacity).contains seatKey

/-- `hasActiveLockSeat`. -/
def hasActiveLockSeat (locks : List SeatLock) (now : Int) (busId : Nat)
    (tripKey : Option Nat) (seatKey : String) (capacity : Nat) : Bool :=
  (listActiveLockedSeatNumbersForBusTrip locks now busId tripKey capacity).contains seatKey

/-- `findOwnedActiveLockForSeat`: the caller's unexpired lock rows for
(bus, trip), searched for one whose normalized seat equals `seatKey`.  A
missing `lockId` (SQL `locked_by = NULL`) matches no row. -/
def findOwnedActiveLockForSeat (locks : List SeatLock) (now : Int) (busId : Nat)
    (tripKey : Option Nat) (lockId : Option String) (seatKey : String)
    (capacity : Nat) : Option SeatLock :=
  ((activeLocksForBusTrip locks now busId tripKey).filter
      (fun l => lockId == some l.lockedBy)).find?
    (fun l => normalizeSeatNumberRaw l.seatNumber capacity == some seatKey)

/-- `SELECT receipt_url … FROM booking_receipts WHERE booking_id = ?`. -/
def getReceiptByBookingId (db : DB) (bookingId : Nat) : Option Receipt :=
  db.receipts.find? (fun r => r.bookingId == bookingId)

/-- `saveReceiptForBooking`: upsert on the unique `booking_id`. -/
def saveReceiptForBooking (db : DB) (bookingId : Nat) (url : String) : DB :=
  if db.receipts.any (fun r => r.bookingId == bookingId) then
    { db with receipts := db.receipts.map (fun r =>
        if r.bookingId == bookingId then { r with receiptUrl := url } else r) }
  else
    { db with receipts := db.receipts ++ [{ bookingId := bookingId, receiptUrl := url }] }

/-! ## Atomic booking insert and the seat lock manager -/

/-- The payload of `insertConfirmedBookingAtomic`. -/
structure BookingInsertPayload where
  passengerId : Nat
  busId : Nat
  tripId : Option Nat
  seatNumber : String
  legacySeatNumber : Option String
  pricePaid : Rat
  externalRef : String

/-- The `WHERE NOT EXISTS` subquery of `insertConfirmedBookingAtomic`: a
confirmed booking for the same bus, the same `COALESCE(trip_id, -1)`, and the
seat in canonical or legacy spelling. -/
def bookingConflictExists (bookings : List Booking) (busId : Nat)
    (tripId : Option Nat) (seatNumber legacySeat : String) : Bool :=
  bookings.any (fun b =>
    b.busId == busId &&
    tripCoalesce b.tripId == tripCoalesce tripId &&
    (b.seatNumber == seatNumber || b.seatNumber == legacySeat) &&
    b.status == "confirmed")

/-- `insertConfirmedBookingAtomic`: conditional `INSERT … SELECT … WHERE NOT
EXISTS`.  Returns the updated database and the new booking id, or `none` when
the insert was refused (`meta.changes = 0`). -/
def insertConfirmedBookingAtomic (db : DB) (p : BookingInsertPayload) :
    DB × Option Nat :=
  let legacy := p.legacySeatNumber.getD p.seatNumber
  if bookingConflictExists db.bookings p.busId p.tripId p.seatNumber legacy then
    (db, none)
  else
    let row : Booking :=
      { id := db.nextBookingId, passengerId := p.passengerId, busId := p.busId,
        tripId := p.tripId, seatNumber := p.seatNumber, pricePaid := p.pricePaid,
        status := "confirmed", externalRef := p.externalRef }
    ({ db with bookings := db.bookings ++ [row],
               nextBookingId := db.nextBookingId + 1 }, some row.id)

/-- Lock TTL: `datetime('now', '+5 minutes')`, in seconds. -/
def lockTtl : Int := 300

/-- Result of `handleLockSeat` (`ok` responds 200, `err` responds 400). -/
inductive LockResult where
  | ok (lockId : String) (tripId : Option Nat) (seat : String) (expiresAt : Int)
  | err (msg : String)
deriving DecidableEq

/-- HTTP status of a `handleLockSeat` response. -/
def LockResult.status : LockResult → Nat
  | .ok _ _ _ _ => 200
  | .err _ => 400

/-- `String(lockId || '').trim() || null`: the caller-requested lock owner,
if nonempty after trimming. -/
def requestedLockId (lockId : Option String) : Option String :=
  lockId.bind (fun s =>
    let t := String.mk (jsTrim s.data)
    if t = "" then none else some t)

/-- The lock owner used by `handleLockSeat`: the requested id, or the freshly
generated `lock_<timestamp>_<random>` string (supplied here as `genOwner`). -/
def lockOwnerOf (lockId : Option String) (genOwner : String) : String :=
  (requestedLockId lockId).getD genOwner

/-- The two DELETE statements `handleLockSeat` runs before inspecting the
lock table: drop this seat's expired locks (canonical and legacy spellings),
and — when a trip namespace is resolved — drop this seat's locks parked in
other trip namespaces. -/
def purgeSeatLocks (locks : List SeatLock) (now : Int) (busId : Nat)
    (seatKey legacySeat : String) (tk : Option Nat) : List SeatLock :=
  let l1 := locks.filter (fun l =>
    !(l.busId == busId && (l.seatNumber == seatKey || l.seatNumber == legacySeat) &&
      decide (l.expiresAt ≤ now)))
  match tk with
  | some t => l1.filter (fun l =>
      !(l.busId == busId && (l.seatNumber == seatKey || l.seatNumber == legacySeat) &&
        (l.tripId == (none : Option Nat) || l.tripId != some t)))
  | none => l1

/-- `handleLockSeat(env, busId, seat, tripId, lockId)`.  `genOwner` stands for
the random owner string generated when the caller supplies no lock id. -/
def handleLockSeat (db : DB) (now : Int) (busId : Nat) (seat : String)
    (tripId : Option Nat) (lockId : Option String) (genOwner : String) :
    DB × LockResult :=
  match resolveTripForBus db busId tripId with
  | .error e => (db, .err e)
  | .ok trip =>
    let tripKey := trip.map (·.id)
    match getBusCapacity db busId with
    | .error e => (db, .err e)
    | .ok capacity =>
      match normalizeSeatNumberRaw seat capacity with
      | none => (db, .err "Invalid seat number")
      | some seatKey =>
        let legacySeat := (canonicalSeatToLegacy seatKey).getD seatKey
        let lockOwner := lockOwnerOf lockId genOwner
        let purged := purgeSeatLocks db.seatLocks now busId seatKey legacySeat tripKey
        let db2 : DB := { db with seatLocks := purged }
        let matchingLock := (activeLocksForBusTrip db2.seatLocks now busId tripKey).find?
          (fun l => normalizeSeatNumberRaw l.seatNumber capacity == some seatKey)
        if (match matchingLock with
            | some m => m.lockedBy != lockOwner
            | none => false) then
          (db2, .err "Seat already locked by another user")
        else if hasConfirmedSeat db2.bookings busId tripKey seatKey capacity then
          (db2, .err "Seat already booked")
        else
          let expiresAt := now + lockTtl
          match matchingLock with
          | some m =>
            ({ db2 with seatLocks := db2.seatLocks.map (fun l =>
                if l.id == m.id then { l with expiresAt := expiresAt } else l) },
              .ok lockOwner tripKey seatKey expiresAt)
          | none =>
            ({ db2 with
                seatLocks := db2.seatLocks ++
                  [{ id := db2.nextLockId, busId := busId, tripId := tripKey,
                     seatNumber := seatKey, lockedBy := lockOwner,
                     expiresAt := expiresAt }],
                nextLockId := db2.nextLockId + 1 },
              .ok lockOwner tripKey seatKey expiresAt)

/-! ## Seat availability engine (`handleGetBusSeats`) -/

/-- The JSON payload of a successful `GET /api/bus/:busId/seats`. -/
structure SeatsPayload where
  tripId : Option Nat
  available : List String
  locked : List String
  ownLocked : List String
  booked : List String
deriving DecidableEq

/-- Result of `handleGetBusSeats` (`ok` responds 200; every thrown error is
caught and responds 500). -/
inductive SeatsResult where
  | ok (p : SeatsPayload)
  | err (msg : String)
deriving DecidableEq

/-- HTTP status of a `handleGetBusSeats` response. -/
def SeatsResult.status : SeatsResult → Nat
  | .ok _ => 200
  | .err _ => 500

/-- The caller's own normalized, deduplicated, numerically sorted locked
seats: unexpired locks whose `locked_by` equals the caller's lock id. -/
def ownLockedSeats (locks : List SeatLock) (now : Int) (busId : Nat)
    (tripKey : Option Nat) (ownLockId : Option String) (capacity : Nat) :
    List String :=
  sortedBy seatSortVal
    (((activeLocksForBusTrip locks now busId tripKey).filterMap (fun l =>
      (normalizeSeatNumberRaw l.seatNumber capacity).bind (fun k =>
        if ownLockId = some l.lockedBy then some k else none))).dedup)

/-- Normalized, deduplicated, numerically sorted seats locked by sessions
other than the caller's lock id. -/
def otherLockedSeats (locks : List SeatLock) (now : Int) (busId : Nat)
    (tripKey : Option Nat) (ownLockId : Option String) (capacity : Nat) :
    List String :=
  sortedBy seatSortVal
    (((activeLocksForBusTrip locks now busId tripKey).filterMap (fun l =>
      (normalizeSeatNumberRaw l.seatNumber capacity).bind (fun k =>
        if ownLockId = some l.lockedBy then none else some k))).dedup)

/-- `handleGetBusSeats(env, busId, request)`; `tripIdParam`/`lockIdParam`
model the parsed `?tripId`/`?lockId` query parameters. -/
def handleGetBusSeats (db : DB) (now : Int) (busId : Nat)
    (tripIdParam : Option Nat) (lockIdParam : Option String) : SeatsResult :=
  match resolveTripForBus db busId tripIdParam with
  | .error e => .err e
  | .ok trip =>
    let tripKey := trip.map (·.id)
    match getBusCapacity db busId with
    | .error e => .err e
    | .ok capacity =>
      let ownLockId := requestedLockId lockIdParam
      let allSeats := (List.range capacity).map (fun i => natToString (i + 1))
      let bookedSeats := listConfirmedSeatNumbersForBusTrip db.bookings busId tripKey capacity
      let ownLocked := ownLockedSeats db.seatLocks now busId tripKey ownLockId capacity
      let lockedSeats := otherLockedSeats db.seatLocks now busId tripKey ownLockId capacity
      -- available for this caller = all seats not booked and not locked by others
      let available := allSeats.filter (fun s =>
        !(bookedSeats.contains s) && !(lockedSeats.contains s))
      .ok { tripId := tripKey, available := available, locked := lockedSeats,
            ownLocked := ownLocked, booked := bookedSeats }

/-! ## Booking finalizer (`handleBookingConfirm`) -/

/-- `Math.round(x)` (round half toward +∞) on exact rationals. -/
def jsRound (q : Rat) : Int := (q + 1 / 2).floor

/-- Outcome of the synchronous `verifyPaystackTransaction` call: the
processor's transaction status and minor-unit amount, or the thrown error
(missing secret key, HTTP failure, malformed response). -/
structure VerifyResult where
  status : String
  amountKobo : Int
deriving DecidableEq

/-- One SMS sent through the Arkesel gateway (the interpolated message body
is modelled by its data: booking id, seat list, amount, receipt link). -/
structure SmsEvent where
  phone : String
  bookingId : Nat
  seats : List String
  amount : Rat
  receiptUrl : Option String
deriving DecidableEq

/-- The request body of `POST /api/booking/confirm`.  `price = none` models a
value for which `Number.isFinite(Number(price))` is false; similarly for
`unitPrice`.  An absent `paystackRef` is modelled by `""` (both are falsy). -/
structure ConfirmData where
  firstName : String
  lastName : String
  email : String
  phone : String
  nokName : Option String
  nokPhone : Option String
  seat : Option String
  seats : List String
  busId : Nat
  price : Option Rat
  unitPrice : Option Rat
  lockId : Option String
  paystackRef : String
  tripId : Option Nat
deriving DecidableEq

/-- The JSON payload of a successful `POST /api/booking/confirm`. -/
structure ConfirmPayload where
  bookingId : String
  bookingIds : List String
  passengerName : String
  routeName : String
  busName : String
  seat : String
  seats : List String
  seatCount : Nat
  price : Rat
  phone : String
  email : String
  status : String
  duplicate : Bool
  receiptUrl : Option String
deriving DecidableEq

/-- Result of `handleBookingConfirm` (`ok` responds 200, `err` responds 400). -/
inductive ConfirmResult where
  | ok (p : ConfirmPayload)
  | err (msg : String)
deriving DecidableEq

/-- HTTP status of a `handleBookingConfirm` response. -/
def ConfirmResult.status : ConfirmResult → Nat
  | .ok _ => 200
  | .err _ => 400

/-- The seat-key collection loop of `handleBookingConfirm`: normalize every
raw seat against the capacity, failing on the first invalid one,
deduplicating while preserving order. -/
def collectSeatKeys (capacity : Nat) : List String → List String → Option (List String)
  | [], acc => some acc
  | r :: rest, acc =>
    match normalizeSeatNumberRaw r capacity with
    | none => none
    | some k => collectSeatKeys capacity rest (if acc.contains k then acc else acc ++ [k])

/-- A row of the idempotency query: bookings whose `external_ref` equals the
reference or starts with `reference:`, joined (inner) with their bus and its
route. -/
structure ExistingRow where
  id : Nat
  seatNumber : String
  pricePaid : Rat
  busName : String
  routeName : String
  busCapacity : Nat
deriving DecidableEq

/-- Whether a stored `external_ref` matches the reference exactly or in the
`reference:<seat>` form (`external_ref = ? OR external_ref LIKE ?:%`). -/
def refMatches (ref : String) (externalRef : String) : Bool :=
  externalRef == ref || (ref ++ ":").data.isPrefixOf externalRef.data

/-- The idempotency query of `handleBookingConfirm` (`ORDER BY b.id ASC`). -/
def existingBookingsForRef (db : DB) (ref : String) : List ExistingRow :=
  sortedBy (·.id)
    ((db.bookings.filter (fun b => refMatches ref b.externalRef)).filterMap
      (fun b => (findBus db b.busId).bind (fun bus =>
        bus.routeId.bind (fun rid =>
          (db.routes.find? (fun r => r.id == rid)).map (fun r =>
            { id := b.id, seatNumber := b.seatNumber, pricePaid := b.pricePaid,
              busName := bus.name, routeName := r.name,
              busCapacity := bus.capacity : ExistingRow })))))

/-- The lock-ownership loop of `handleBookingConfirm`: every seat must have
an unexpired lock owned by the caller's lock session. -/
def collectOwnedLocks (locks : List SeatLock) (now : Int) (busId : Nat)
    (tripKey : Option Nat) (lockId : Option String) (capacity : Nat) :
    List String → Except String (List SeatLock)
  | [] => .ok []
  | k :: rest =>
    match findOwnedActiveLockForSeat locks now busId tripKey lockId k capacity with
    | none => .error ("Seat lock expired or invalid for seat " ++ k)
    | some l =>
      match collectOwnedLocks locks now busId tripKey lockId capacity rest with
      | .error e => .error e
      | .ok ls => .ok (l :: ls)

/-- The conditional-insert payload for one seat of a confirm request: the
canonical seat, its legacy spelling, and the per-seat external reference
(the raw reference for single-seat purchases, `ref:<seat>` otherwise). -/
def seatPayload (busId : Nat) (tripKey : Option Nat) (passengerId : Nat)
    (perSeatPaid : Rat) (ref : String) (single : Bool) (seatKey : String) :
    BookingInsertPayload :=
  { passengerId := passengerId, busId := busId, tripId := tripKey,
    seatNumber := seatKey,
    legacySeatNumber := some ((canonicalSeatToLegacy seatKey).getD seatKey),
    pricePaid := perSeatPaid,
    externalRef := if single then ref else ref ++ ":" ++ seatKey }

/-- The per-seat conditional-insert loop of `handleBookingConfirm`.  On a
refused insert it deletes the bookings created earlier in this request
(returning the rolled-back database and the conflicting seat). -/
def insertSeatsLoop (busId : Nat) (tripKey : Option Nat) (passengerId : Nat)
    (perSeatPaid : Rat) (ref : String) (single : Bool) :
    DB → List String → List Nat → DB × Except String (List Nat)
  | db, [], created => (db, .ok created)
  | db, seatKey :: rest, created =>
    match insertConfirmedBookingAtomic db
      (seatPayload busId tripKey passengerId perSeatPaid ref single seatKey) with
    | (db', some bid) =>
      insertSeatsLoop busId tripKey passengerId perSeatPaid ref single db' rest
        (created ++ [bid])
    | (db', none) =>
      ({ db' with bookings := db'.bookings.filter (fun b => !(created.contains b.id)) },
        .error seatKey)

/-- Recompute the bus's `available_seats` hint in trip-aware mode:
`capacity − confirmed_count_for_trip`, clamped at 0. -/
def updateAvailableSeats (db : DB) (busId : Nat) (tripKey : Nat) : DB :=
  let busCap : Nat := (findBus db busId).elim 0 (·.capacity)
  let confirmedCount := (db.bookings.filter (fun b =>
    b.busId == busId && b.tripId == some tripKey && b.status == "confirmed")).length
  let remaining : Int := max 0 ((busCap : Int) - confirmedCount)
  { db with buses := db.buses.map (fun b =>
      if b.id == busId then { b with availableSeats := remaining } else b) }

/-- The raw seat list of a confirm request: the `seats` array when nonempty,
else the single `seat` value when present. -/
def rawSeatListOf (data : ConfirmData) : List String :=
  if data.seats ≠ [] then data.seats
  else match data.seat with
    | some s => [s]
    | none => []

/-- `handleBookingConfirm(env, data)`.  `verification` is the outcome of the
server-side `verifyPaystackTransaction` call; `gasReceiptUrl` is the receipt
URL produced by the best-effort receipt service, if any. -/
def handleBookingConfirm (db : DB) (now : Int) (data : ConfirmData)
    (verification : Except String VerifyResult) (gasReceiptUrl : Option String) :
    DB × ConfirmResult × List SmsEvent :=
  match resolveTripForBus db data.busId data.tripId with
  | .error e => (db, .err e, [])
  | .ok trip =>
    let tripKey := trip.map (·.id)
    match getBusCapacity db data.busId with
    | .error e => (db, .err e, [])
    | .ok capacity =>
      let rawSeatList := rawSeatListOf data
      if rawSeatList = [] then (db, .err "Seat selection is required", [])
      else
        match collectSeatKeys capacity rawSeatList [] with
        | none => (db, .err "Invalid seat number", [])
        | some seatKeys =>
          if data.paystackRef = "" then (db, .err "Payment reference is required", [])
          else
            let existingRows := existingBookingsForRef db data.paystackRef
            if hEx : existingRows ≠ [] then
              -- idempotency: rebuild the confirmation from the stored bookings
              let head := existingRows.head hEx
              let existingReceipt := getReceiptByBookingId db head.id
              let normalizedSeats := (existingRows.map (fun r =>
                (normalizeSeatNumberRaw r.seatNumber
                  (if r.busCapacity > 0 then r.busCapacity else capacity)).getD
                  r.seatNumber)).filter (fun s => s ≠ "")
              let totalPaid := (existingRows.map (·.pricePaid)).sum
              (db, .ok {
                bookingId := "ELITE-" ++ natToString head.id,
                bookingIds := existingRows.map (fun r => "ELITE-" ++ natToString r.id),
                passengerName := data.firstName ++ " " ++ data.lastName,
                routeName := head.routeName,
                busName := head.busName,
                seat := String.intercalate ", " normalizedSeats,
                seats := normalizedSeats,
                seatCount := normalizedSeats.length,
                price := totalPaid,
                phone := data.phone,
                email := data.email,
                status := "confirmed",
                duplicate := true,
                receiptUrl := existingReceipt.map (·.receiptUrl) }, [])
            else
              match verification with
              | .error e => (db, .err e, [])
              | .ok v =>
                if v.status ≠ "success" then (db, .err "Payment not successful", [])
                else if (match data.price with
                    | some p => v.amountKobo != jsRound (p * 100)
                    | none => false) then
                  (db, .err "Payment amount mismatch", [])
                else
                  match collectOwnedLocks db.seatLocks now data.busId tripKey
                      data.lockId capacity seatKeys with
                  | .error e => (db, .err e, [])
                  | .ok ownedLocks =>
                    -- create the passenger record
                    let passengerId := db.nextPassengerId
                    let db1 : DB := { db with
                      passengers := db.passengers ++
                        [{ id := passengerId, firstName := data.firstName,
                           lastName := data.lastName, email := data.email,
                           phone := data.phone, nokName := data.nokName,
                           nokPhone := data.nokPhone }],
                      nextPassengerId := passengerId + 1 }
                    let totalPaid := data.price.getD 0
                    let perSeatPaid := match data.unitPrice with
                      | some u => if 0 < u then u
                          else totalPaid / (seatKeys.length : Rat)
                      | none => totalPaid / (seatKeys.length : Rat)
                    match insertSeatsLoop data.busId tripKey passengerId
                        perSeatPaid data.paystackRef (seatKeys.length == 1)
                        db1 seatKeys [] with
                    | (db2, .error seatKey) =>
                      -- roll back the passenger row and fail
                      let keptPassengers :=
                        db2.passengers.filter (fun p => !(p.id == passengerId))
                      let dbR : DB := { db2 with passengers := keptPassengers }
                      (dbR, .err ("Seat already booked: " ++ seatKey), [])
                    | (db2, .ok createdIds) =>
                      let bookingId := createdIds.headD 0
                      -- remove all consumed seat locks
                      let keptLocks :=
                        db2.seatLocks.filter
                          (fun l => !((ownedLocks.map (·.id)).contains l.id))
                      let db3 : DB := { db2 with seatLocks := keptLocks }
                      let db4 := match tripKey with
                        | some t => updateAvailableSeats db3 data.busId t
                        | none => db3
                      let busInfo := findBus db4 data.busId
                      let busName := (busInfo.map (·.name)).getD "Unknown Bus"
                      let routeIdForBooking := match trip with
                        | some t => some t.routeId
                        | none => busInfo.bind (·.routeId)
                      let routeName := match routeIdForBooking with
                        | some rid => ((db4.routes.find? (fun r => r.id == rid)).map
                            (·.name)).getD "Route"
                        | none => "Route"
                      let db5 := match gasReceiptUrl with
                        | some url => createdIds.foldl
                            (fun acc bid => saveReceiptForBooking acc bid url) db4
                        | none => db4
                      let sms : SmsEvent :=
                        { phone := data.phone, bookingId := bookingId,
                          seats := seatKeys, amount := totalPaid,
                          receiptUrl := gasReceiptUrl }
                      (db5, .ok {
                        bookingId := "ELITE-" ++ natToString bookingId,
                        bookingIds := createdIds.map (fun i => "ELITE-" ++ natToString i),
                        passengerName := data.firstName ++ " " ++ data.lastName,
                        routeName := routeName,
                        busName := busName,
                        seat := String.intercalate ", " seatKeys,
                        seats := seatKeys,
                        seatCount := seatKeys.length,
                        price := totalPaid,
                        phone := data.phone,
                        email := data.email,
                        status := "confirmed",
                        duplicate := false,
                        receiptUrl := gasReceiptUrl }, [sms])

/-! ## Authentication, admin manual booking, webhook, and e-mail sign-up -/

/-- `parseAdminEmails(env)`: split the configured `ADMIN_EMAILS` on commas,
trim, lower-case, drop empties. -/
def parseAdminEmails (adminEmailsCfg : String) : List String :=
  if adminEmailsCfg.trim = "" then []
  else ((adminEmailsCfg.splitOn ",").map (fun e => e.trim.toLower)).filter (· ≠ "")

/-- `isAdminEmail(env, email)`. -/
def isAdminEmail (adminEmailsCfg : String) (email : String) : Bool :=
  if email = "" then false
  else (parseAdminEmails adminEmailsCfg).contains email.toLower

/-- `getSessionUser(env, token)`. -/
def getSessionUser (db : DB) (now : Int) (token : Option String) :
    Except String User :=
  match token with
  | none => .error "Token required"
  | some tok =>
    if tok = "" then .error "Token required"
    else
      match db.sessions.find? (fun s => s.token == tok) with
      | none => .error "Invalid token"
      | some s =>
        if s.expiresAt < now then .error "Token expired"
        else
          match db.users.find? (fun u => u.id == s.userId) with
          | none => .error "User not found"
          | some u => .ok u

/-- The request body of `POST /api/admin/bookings/manual`. -/
structure ManualBookingData where
  firstName : String
  lastName : String
  email : String
  phone : String
  nokName : Option String
  nokPhone : Option String
  busId : Nat
  seat : String
  pricePaid : Option Rat
  tripId : Option Nat
deriving DecidableEq

/-- Result of `handleAdminManualBooking` (`ok` 200, `forbidden` 403,
`err` 400). -/
inductive ManualResult where
  | ok (bookingId : Nat) (seat : String) (price : Rat) (externalRef : String)
  | forbidden
  | err (msg : String)
deriving DecidableEq

/-- HTTP status of a `handleAdminManualBooking` response. -/
def ManualResult.status : ManualResult → Nat
  | .ok _ _ _ _ => 200
  | .forbidden => 403
  | .err _ => 400

/-- `handleAdminManualBooking(env, token, data)`.  `extRef` stands for the
generated `admin_manual_<timestamp>_<random>` reference and `gasReceiptUrl`
for the best-effort receipt service outcome. -/
def handleAdminManualBooking (db : DB) (now : Int) (adminEmailsCfg : String)
    (token : Option String) (data : ManualBookingData) (extRef : String)
    (gasReceiptUrl : Option String) : DB × ManualResult × List SmsEvent :=
  match getSessionUser db now token with
  | .error e => (db, .err e, [])
  | .ok user =>
    if !isAdminEmail adminEmailsCfg user.email then (db, .forbidden, [])
    else if data.firstName = "" || data.lastName = "" || data.email = "" ||
        data.phone = "" || data.busId == 0 || data.seat = "" then
      (db, .err "Missing required fields", [])
    else
      match findBus db data.busId with
      | none => (db, .err "Bus not found", [])
      | some bus =>
        match resolveTripForBus db data.busId data.tripId with
        | .error e => (db, .err e, [])
        | .ok trip =>
          let tripKey := trip.map (·.id)
          let capacity := if bus.capacity > 0 then bus.capacity else 50
          match normalizeSeatNumberRaw data.seat capacity with
          | none => (db, .err "Invalid seat number", [])
          | some seatKey =>
            let legacySeat := (canonicalSeatToLegacy seatKey).getD seatKey
            if hasConfirmedSeat db.bookings data.busId tripKey seatKey capacity then
              (db, .err "Seat already booked", [])
            else if hasActiveLockSeat db.seatLocks now data.busId tripKey seatKey capacity then
              (db, .err "Seat currently locked", [])
            else
              let passengerId := db.nextPassengerId
              let db1 : DB := { db with
                passengers := db.passengers ++
                  [{ id := passengerId, firstName := data.firstName,
                     lastName := data.lastName, email := data.email,
                     phone := data.phone, nokName := data.nokName,
                     nokPhone := data.nokPhone }],
                nextPassengerId := passengerId + 1 }
              let paid := data.pricePaid.getD bus.price
              match insertConfirmedBookingAtomic db1
                { passengerId := passengerId, busId := data.busId,
                  tripId := tripKey, seatNumber := seatKey,
                  legacySeatNumber := some legacySeat, pricePaid := paid,
                  externalRef := extRef } with
              | (db2, none) =>
                let keptPassengers :=
                  db2.passengers.filter (fun p => !(p.id == passengerId))
                ({ db2 with passengers := keptPassengers },
                  .err "Seat already booked", [])
              | (db2, some bookingId) =>
                let db3 := match gasReceiptUrl with
                  | some url => saveReceiptForBooking db2 bookingId url
                  | none => db2
                let sms : SmsEvent :=
                  { phone := data.phone, bookingId := bookingId,
                    seats := [seatKey], amount := paid,
                    receiptUrl := gasReceiptUrl }
                let db4 := match tripKey with
                  | some t => updateAvailableSeats db3 data.busId t
                  | none => db3
                (db4, .ok bookingId seatKey paid extRef, [sms])

/-! ## Payment webhook receiver (`handlePaystackWebhook`) -/

/-- `timingSafeEqual(a, b)` from the source: length check and constant-time
XOR fold over the code units. -/
def timingSafeEqual (a b : String) : Bool :=
  if a = "" || b = "" || a.length != b.length then false
  else ((a.data.zip b.data).foldl
    (fun out p => out ||| (p.1.toNat ^^^ p.2.toNat)) 0) == 0

/-- The parsed webhook body: `event` name and `data.reference`
(`none` when absent). -/
structure PaystackEvent where
  event : String
  reference : Option String
deriving DecidableEq

/-- Result of `handlePaystackWebhook`. -/
inductive WebhookResult where
  | received          -- 200 {received:true}
  | invalidSignature  -- 401
  | missingSecret     -- 500 Missing PAYSTACK_SECRET_KEY
  | parseError        -- 400 (JSON.parse throws, caught by the handler)
deriving DecidableEq

/-- HTTP status of a `handlePaystackWebhook` response. -/
def WebhookResult.status : WebhookResult → Nat
  | .received => 200
  | .invalidSignature => 401
  | .missingSecret => 500
  | .parseError => 400

/-- The booking row read by `handleWebhookBookingFallback`: the largest-id
booking matching the reference, inner-joined with its passenger and bus. -/
def fallbackBookingForRef (db : DB) (ref : String) :
    Option (Booking × Passenger × Bus) :=
  (db.bookings.filter (fun b => refMatches ref b.externalRef)).foldl
    (fun acc b => match db.passengers.find? (fun p => p.id == b.passengerId),
        findBus db b.busId with
      | some p, some bus =>
        match acc with
        | none => some (b, p, bus)
        | some (b', _, _) => if b'.id < b.id then some (b, p, bus) else acc
      | _, _ => acc) none

/-- `handleWebhookBookingFallback(env, reference)`: generate and persist a
receipt when none is stored, and send one fallback SMS only when no receipt
row existed before. -/
def handleWebhookBookingFallback (db : DB) (ref : String)
    (gasReceiptUrl : Option String) : DB × List SmsEvent :=
  match fallbackBookingForRef db ref with
  | none => (db, [])
  | some (b, p, bus) =>
    let capacity := if bus.capacity > 0 then bus.capacity else 50
    let normalizedSeat := (normalizeSeatNumberRaw b.seatNumber capacity).getD b.seatNumber
    let existingReceipt := getReceiptByBookingId db b.id
    let receiptUrl := match existingReceipt with
      | some r => some r.receiptUrl
      | none => gasReceiptUrl
    let db1 := match existingReceipt, gasReceiptUrl with
      | none, some url => saveReceiptForBooking db b.id url
      | _, _ => db
    let smss := match existingReceipt with
      | some _ => []
      | none => [{ phone := p.phone, bookingId := b.id, seats := [normalizedSeat],
                   amount := b.pricePaid, receiptUrl := receiptUrl : SmsEvent }]
    (db1, smss)

/-- `handlePaystackWebhook(env, request)`.  `hmacHex` stands for the
HMAC-SHA-512 hex digest computed by `hmacSha512Hex`; `parsed` models
`JSON.parse(rawBody)` (`none` = parse failure). -/
def handlePaystackWebhook (secretCfg : Option String)
    (hmacHex : String → String → String) (db : DB) (rawBody : String)
    (signature : String) (parsed : Option PaystackEvent)
    (gasReceiptUrl : Option String) : DB × WebhookResult × List SmsEvent :=
  match secretCfg with
  | none => (db, .missingSecret, [])
  | some secret =>
    let expectedSignature := hmacHex secret rawBody
    if !timingSafeEqual signature expectedSignature then
      (db, .invalidSignature, [])
    else
      match parsed with
      | none => (db, .parseError, [])
      | some ev =>
        if ev.event == "charge.success" then
          match ev.reference with
          | some ref =>
            if ref = "" then (db, .received, [])
            else
              -- best-effort: mark matching bookings confirmed
              let db1 : DB := { db with bookings := db.bookings.map (fun b =>
                if refMatches ref b.externalRef then { b with status := "confirmed" }
                else b) }
              let (db2, smss) := handleWebhookBookingFallback db1 ref gasReceiptUrl
              (db2, .received, smss)
          | none => (db, .received, [])
        else (db, .received, [])

/-! ## E-mail sign-up (`handleEmailSignUp`) -/

/-- The request body of `POST /api/auth/signup` (all fields strings;
absent/empty are both falsy). -/
structure SignUpData where
  firstName : String
  lastName : String
  email : String
  phone : String
  password : String
deriving DecidableEq

/-- Result of `handleEmailSignUp` (`ok` 200, `err` 400). -/
inductive SignUpResult where
  | ok (token : String) (userId : Nat)
  | err (msg : String)
deriving DecidableEq

/-- HTTP status of a `handleEmailSignUp` response. -/
def SignUpResult.status : SignUpResult → Nat
  | .ok _ _ => 200
  | .err _ => 400

/-- Session TTL: 7 days, in seconds. -/
def sessionTtl : Int := 7 * 24 * 60 * 60

/-- `handleEmailSignUp(env, data)`.  `hashFn` stands for the PBKDF2 password
hash and `freshToken` for the generated opaque session token. -/
def handleEmailSignUp (db : DB) (now : Int) (data : SignUpData)
    (hashFn : String → String) (freshToken : String) : DB × SignUpResult :=
  if data.firstName = "" || data.lastName = "" || data.email = "" ||
      data.phone = "" || data.password = "" then
    (db, .err "All fields required")
  else if data.password.length < 6 then
    (db, .err "Password must be at least 6 characters")
  else
    match db.users.find? (fun u => u.email == data.email) with
    | some _ => (db, .err "User already exists")
    | none =>
      let userId := db.nextUserId
      let db1 : DB := { db with
        users := db.users ++
          [{ id := userId, email := data.email, firstName := data.firstName,
             lastName := data.lastName, phone := data.phone,
             passwordHash := some (hashFn data.password), authMethod := "email" }],
        nextUserId := userId + 1 }
      let db2 : DB := { db1 with
        passengers := db1.passengers ++
          [{ id := db1.nextPassengerId, firstName := data.firstName,
             lastName := data.lastName, email := data.email, phone := data.phone,
             nokName := none, nokPhone := none }],
        nextPassengerId := db1.nextPassengerId + 1 }
      let db3 : DB := { db2 with
        sessions := db2.sessions ++
          [{ token := freshToken, userId := userId, expiresAt := now + sessionTtl }] }
      (db3, .ok freshToken userId)

/-! ## Claim theorems -/

/-- An empty store (fresh database after schema bootstrap). -/
def emptyDB : DB :=
  { routes := [], buses := [], trips := [], passengers := [], users := [],
    sessions := [], bookings := [], seatLocks := [], receipts := [],
    nextBookingId := 1, nextPassengerId := 1, nextLockId := 1, nextUserId := 1 }

/-- C10: every e-mail sign-up whose password is shorter than 6 characters
fails with a 400 response and creates no user row, no passenger row, and no
session row. -/
theorem signUp_shortPassword_rejected (db : DB) (now : Int) (data : SignUpData)
    (hashFn : String → String) (freshToken : String)
    (h : data.password.length < 6) :
    (handleEmailSignUp db now data hashFn freshToken).2.status = 400 ∧
    (handleEmailSignUp db now data hashFn freshToken).1.users = db.users ∧
    (handleEmailSignUp db now data hashFn freshToken).1.passengers = db.passengers ∧
    (handleEmailSignUp db now data hashFn freshToken).1.sessions = db.sessions := by
  unfold handleEmailSignUp
  split
  · exact ⟨rfl, rfl, rfl, rfl⟩
  · exact ⟨rfl, rfl, rfl, rfl⟩

/-- Witness for `signUp_shortPassword_rejected` on a concrete request. -/
theorem signUp_shortPassword_witness :
    ("123".length < 6) ∧
    (handleEmailSignUp emptyDB 0
      { firstName := "Ama", lastName := "Mensah", email := "ama@example.com",
        phone := "0551234567", password := "123" }
      (fun p => "hash_" ++ p) "tok_1").2.status = 400 :=
  ⟨by decide, (signUp_shortPassword_rejected emptyDB 0
    { firstName := "Ama", lastName := "Mensah", email := "ama@example.com",
      phone := "0551234567", password := "123" }
    (fun p => "hash_" ++ p) "tok_1" (by decide)).1⟩

/-- C9 counterexample: with no bus `1` in the store, `GET /api/bus/1/seats`
responds 500 and `POST /api/bus/1/lock-seat` responds 400 — neither responds
404 as the claim states. -/
theorem unknownBus_status_counterexample :
    (handleGetBusSeats emptyDB 0 1 none none).status = 500 ∧
    (handleGetBusSeats emptyDB 0 1 none none).status ≠ 404 ∧
    (handleLockSeat emptyDB 0 1 "5" none none "lock_g").2.status = 400 ∧
    (handleLockSeat emptyDB 0 1 "5" none none "lock_g").2.status ≠ 404 := by
  decide

/-- C9 (amended): when `busId` names no bus row, the seats endpoint responds
with its catch-all status 500 and the lock-seat endpoint with its catch-all
status 400; only unmatched URL paths get 404 from the dispatcher. -/
theorem unknownBus_statuses (db : DB) (now : Int) (busId : Nat)
    (tripParam : Option Nat) (lockParam : Option String) (seat : String)
    (lockId : Option String) (genOwner : String)
    (hbus : findBus db busId = none) :
    (handleGetBusSeats db now busId tripParam lockParam).status = 500 ∧
    (handleLockSeat db now busId seat tripParam lockId genOwner).2.status = 400 := by
  have hc : getBusCapacity db busId = .error "Bus not found" := by
    unfold getBusCapacity
    rw [hbus]
  constructor
  · unfold handleGetBusSeats
    split
    · rfl
    · rw [hc]
      rfl
  · unfold handleLockSeat
    split
    · rfl
    · rw [hc]
      rfl

/-- Witness for `unknownBus_statuses` on the empty store. -/
theorem unknownBus_statuses_witness :
    findBus emptyDB 1 = none ∧
    (handleGetBusSeats emptyDB 0 1 none none).status = 500 ∧
    (handleLockSeat emptyDB 0 1 "5" none none "lock_g").2.status = 400 :=
  ⟨by decide, unknownBus_statuses emptyDB 0 1 none none "5" none "lock_g" (by decide)⟩

/-! ### C8: webhook signature behaviour -/

theorem lor_eq_zero_iff (a b : Nat) : a ||| b = 0 ↔ a = 0 ∧ b = 0 := by
  constructor
  · intro h
    refine ⟨Nat.eq_of_testBit_eq (fun i => ?_), Nat.eq_of_testBit_eq (fun i => ?_)⟩ <;>
      · have := congrArg (fun x => Nat.testBit x i) h
        simp only [Nat.testBit_lor, Nat.zero_testBit, Bool.or_eq_false_iff] at this
        simp [this.1, this.2]
  · rintro ⟨rfl, rfl⟩; rfl

theorem charToNat_inj {a b : Char} (h : a.toNat = b.toNat) : a = b := by
  have := congrArg Char.ofNat h
  rwa [Char.ofNat_toNat, Char.ofNat_toNat] at this

theorem xorFold_eq_zero (pairs : List (Char × Char)) :
    ∀ acc, (pairs.foldl (fun out p => out ||| (p.1.toNat ^^^ p.2.toNat)) acc = 0) ↔
      (acc = 0 ∧ ∀ p ∈ pairs, p.1 = p.2) := by
  induction pairs with
  | nil => intro acc; simp
  | cons p t ih =>
    intro acc
    rw [List.foldl_cons, ih, lor_eq_zero_iff]
    constructor
    · rintro ⟨⟨hacc, hx⟩, hall⟩
      refine ⟨hacc, ?_⟩
      intro q hq
      rcases List.mem_cons.mp hq with rfl | hq
      · exact charToNat_inj (Nat.xor_eq_zero.mp hx)
      · exact hall q hq
    · rintro ⟨hacc, hall⟩
      exact ⟨⟨hacc, Nat.xor_eq_zero.mpr (congrArg Char.toNat (hall p (by simp)))⟩,
        fun q hq => hall q (by simp [hq])⟩

theorem zip_all_fst_eq_snd {l1 l2 : List Char} (hlen : l1.length = l2.length)
    (h : ∀ p ∈ l1.zip l2, p.1 = p.2) : l1 = l2 := by
  induction l1 generalizing l2 with
  | nil => cases l2 with
    | nil => rfl
    | cons b s => simp at hlen
  | cons a t ih =>
    cases l2 with
    | nil => simp at hlen
    | cons b s =>
      have hab : a = b := h (a, b) (by simp [List.zip_cons_cons])
      have ht : t = s := ih (by simpa using hlen)
        (fun p hp => h p (by simp [List.zip_cons_cons, hp]))
      rw [hab, ht]

theorem mem_zip_self_eq {l : List Char} : ∀ p ∈ l.zip l, p.1 = p.2 := by
  induction l with
  | nil => intro p hp; simp at hp
  | cons a t ih =>
    intro p hp
    rw [List.zip_cons_cons, List.mem_cons] at hp
    rcases hp with rfl | hp
    · rfl
    · exact ih p hp

/-- `timingSafeEqual` decides string equality whenever the second argument
(the expected digest) is nonempty. -/
theorem timingSafeEqual_eq_true_iff {a b : String} (hb : b ≠ "") :
    timingSafeEqual a b = true ↔ a = b := by
  unfold timingSafeEqual
  split
  · next hcond =>
    simp only [Bool.or_eq_true, decide_eq_true_eq, bne_iff_ne, ne_eq] at hcond
    constructor
    · intro h; exact absurd h (by simp)
    · rintro rfl
      rcases hcond with (h | h) | h
      · exact absurd h hb
      · exact absurd h hb
      · exact absurd rfl h
  · next hcond =>
    simp only [Bool.or_eq_true, decide_eq_true_eq, bne_iff_ne, ne_eq, not_or,
      not_not] at hcond
    rw [beq_iff_eq, xorFold_eq_zero]
    constructor
    · rintro ⟨-, hall⟩
      have hdata : a.data = b.data := zip_all_fst_eq_snd hcond.2 hall
      exact congrArg String.mk hdata
    · rintro rfl
      exact ⟨rfl, mem_zip_self_eq⟩

/-- C8: the webhook responds 401 whenever the `x-paystack-signature` header
differs from the HMAC-SHA-512 hex digest of the raw body under the configured
secret, and responds 200 `{received:true}` for every validly signed
`charge.success` payload, regardless of the stored bookings. -/
theorem webhook_signature_behaviour (secret : String)
    (hmacHex : String → String → String) (db : DB) (rawBody sig : String)
    (parsed : Option PaystackEvent) (gas : Option String)
    (hne : hmacHex secret rawBody ≠ "") :
    (sig ≠ hmacHex secret rawBody →
      (handlePaystackWebhook (some secret) hmacHex db rawBody sig parsed gas).2.1.status
        = 401) ∧
    (sig = hmacHex secret rawBody →
      ∀ ev, parsed = some ev → ev.event = "charge.success" →
        (handlePaystackWebhook (some secret) hmacHex db rawBody sig parsed gas).2.1
          = .received ∧
        (handlePaystackWebhook (some secret) hmacHex db rawBody sig parsed gas).2.1.status
          = 200) := by
  constructor
  · intro hdiff
    have hts : timingSafeEqual sig (hmacHex secret rawBody) = false := by
      rw [Bool.eq_false_iff]
      intro h
      exact hdiff ((timingSafeEqual_eq_true_iff hne).mp h)
    simp [handlePaystackWebhook, hts, WebhookResult.status]
  · intro heq ev hev hcs
    have hts : timingSafeEqual sig (hmacHex secret rawBody) = true :=
      (timingSafeEqual_eq_true_iff hne).mpr heq
    have hrec :
        (handlePaystackWebhook (some secret) hmacHex db rawBody sig parsed gas).2.1
          = .received := by
      rcases href : ev.reference with _ | ref
      · simp [handlePaystackWebhook, hts, hev, hcs, href]
      · by_cases hrf : ref = ""
        · simp [handlePaystackWebhook, hts, hev, hcs, href, hrf]
        · simp [handlePaystackWebhook, hts, hev, hcs, href, hrf]
    exact ⟨hrec, by rw [hrec]; rfl⟩

/-- Witness for `webhook_signature_behaviour` with a concrete digest
function. -/
theorem webhook_signature_witness :
    (handlePaystackWebhook (some "sk") (fun s b => s ++ "|" ++ b) emptyDB "{}" "bad"
      (some { event := "charge.success", reference := some "R1" }) none).2.1.status
        = 401 ∧
    (handlePaystackWebhook (some "sk") (fun s b => s ++ "|" ++ b) emptyDB "{}" "sk|{}"
      (some { event := "charge.success", reference := some "R1" }) none).2.1.status
        = 200 :=
  ⟨(webhook_signature_behaviour "sk" (fun s b => s ++ "|" ++ b) emptyDB "{}" "bad"
      (some { event := "charge.success", reference := some "R1" }) none
      (by decide)).1 (by decide),
   ((webhook_signature_behaviour "sk" (fun s b => s ++ "|" ++ b) emptyDB "{}" "sk|{}"
      (some { event := "charge.success", reference := some "R1" }) none
      (by decide)).2 (by decide)
      { event := "charge.success", reference := some "R1" } rfl rfl).2⟩

/-! ### C5: payment amount mismatch -/

/-- C5: when the caller supplied a finite total price and the processor's
verified minor-unit amount differs from `round(price·100)`,
`handleBookingConfirm` fails with `Payment amount mismatch`, leaving the
database untouched (no booking row, no passenger row) and sending no SMS. -/
theorem paymentAmountMismatch_rejected (db : DB) (now : Int) (data : ConfirmData)
    (v : VerifyResult) (gas : Option String) (trip : Option Trip) (cap : Nat)
    (seatKeys : List String) (p : Rat)
    (hresolve : resolveTripForBus db data.busId data.tripId = .ok trip)
    (hcap : getBusCapacity db data.busId = .ok cap)
    (hraw : rawSeatListOf data ≠ [])
    (hkeys : collectSeatKeys cap (rawSeatListOf data) [] = some seatKeys)
    (href : data.paystackRef ≠ "")
    (hdup : existingBookingsForRef db data.paystackRef = [])
    (hp : data.price = some p)
    (hsucc : v.status = "success")
    (hmm : v.amountKobo ≠ jsRound (p * 100)) :
    handleBookingConfirm db now data (.ok v) gas =
      (db, .err "Payment amount mismatch", []) := by
  simp only [handleBookingConfirm, hresolve, hcap, hraw, hkeys, href, hdup, hp,
    hsucc, hmm, ne_eq, not_false_eq_true, not_true_eq_false, if_false, if_true,
    bne_iff_ne, ite_true, ite_false, dite_true, dite_false]

/-! ### Sorting lemmas for the seat lists -/

theorem insertSortedBy_perm (val : α → Nat) (x : α) :
    ∀ l : List α, (insertSortedBy val x l).Perm (x :: l) := by
  intro l
  induction l with
  | nil => exact List.Perm.refl _
  | cons y ys ih =>
    unfold insertSortedBy
    split
    · exact List.Perm.refl _
    · exact (ih.cons y).trans (List.Perm.swap x y ys)

theorem sortedBy_perm (val : α → Nat) (l : List α) : (sortedBy val l).Perm l := by
  induction l with
  | nil => exact List.Perm.refl _
  | cons a t ih =>
    exact (insertSortedBy_perm val a (sortedBy val t)).trans (ih.cons a)

theorem mem_sortedBy {val : α → Nat} {l : List α} {a : α} :
    a ∈ sortedBy val l ↔ a ∈ l :=
  (sortedBy_perm val l).mem_iff

theorem mem_insertSortedBy {val : α → Nat} {x a : α} {l : List α}
    (h : a ∈ insertSortedBy val x l) : a = x ∨ a ∈ l := by
  have := (insertSortedBy_perm val x l).mem_iff.mp h
  simpa using this

theorem pairwise_insertSortedBy {val : α → Nat} (x : α) :
    ∀ {l : List α}, l.Pairwise (fun a b => val a ≤ val b) →
      (insertSortedBy val x l).Pairwise (fun a b => val a ≤ val b) := by
  intro l
  induction l with
  | nil =>
    intro
    exact List.Pairwise.cons (by simp) List.Pairwise.nil
  | cons y ys ih =>
    intro hp
    unfold insertSortedBy
    split
    · next hle =>
      refine List.Pairwise.cons ?_ hp
      intro b hb
      rcases List.mem_cons.mp hb with rfl | hb
      · exact hle
      · exact le_trans hle (List.rel_of_pairwise_cons hp hb)
    · next hgt =>
      have hyx : val y ≤ val x := by omega
      obtain ⟨hy, hys⟩ := List.pairwise_cons.mp hp
      refine List.Pairwise.cons ?_ (ih hys)
      intro b hb
      rcases mem_insertSortedBy hb with rfl | hb
      · exact hyx
      · exact hy b hb

theorem pairwise_sortedBy (val : α → Nat) (l : List α) :
    (sortedBy val l).Pairwise (fun a b => val a ≤ val b) := by
  induction l with
  | nil => exact List.Pairwise.nil
  | cons a t ih => exact pairwise_insertSortedBy a ih

theorem nodup_sortedBy {val : α → Nat} {l : List α} (h : l.Nodup) :
    (sortedBy val l).Nodup :=
  ((sortedBy_perm val l).nodup_iff).mpr h

/-! ### C3: idempotency over the payment reference -/

/-- Booking rows whose reference matches — and whose bus and route rows
exist — appear in the idempotency query's result. -/
theorem mem_existingBookingsForRef {db : DB} {ref : String} {b : Booking}
    (hb : b ∈ db.bookings) (hm : refMatches ref b.externalRef = true)
    {bus : Bus} (hbus : findBus db b.busId = some bus)
    {rid : Nat} (hrid : bus.routeId = some rid)
    {route : Route} (hroute : db.routes.find? (fun r => r.id == rid) = some route) :
    ({ id := b.id, seatNumber := b.seatNumber, pricePaid := b.pricePaid,
       busName := bus.name, routeName := route.name,
       busCapacity := bus.capacity : ExistingRow }) ∈ existingBookingsForRef db ref := by
  unfold existingBookingsForRef
  rw [mem_sortedBy]
  apply List.mem_filterMap.mpr
  refine ⟨b, List.mem_filter.mpr ⟨hb, hm⟩, ?_⟩
  rw [hbus]
  simp [hrid, hroute]

/-- C3: whenever a booking row matching the payment reference already exists
(exactly or in the `ref:<seat>` form), `handleBookingConfirm` returns the
stored confirmation with `duplicate := true` and the stored booking ids,
without touching the database, without consulting the payment processor, and
without sending any SMS. -/
theorem confirm_idempotent_over_reference (db : DB) (now : Int)
    (data : ConfirmData) (verification : Except String VerifyResult)
    (gas : Option String) (trip : Option Trip) (cap : Nat)
    (seatKeys : List String)
    (hresolve : resolveTripForBus db data.busId data.tripId = .ok trip)
    (hcap : getBusCapacity db data.busId = .ok cap)
    (hraw : rawSeatListOf data ≠ [])
    (hkeys : collectSeatKeys cap (rawSeatListOf data) [] = some seatKeys)
    (href : data.paystackRef ≠ "")
    (b : Booking) (hb : b ∈ db.bookings)
    (hm : refMatches data.paystackRef b.externalRef = true)
    (bus : Bus) (hbus : findBus db b.busId = some bus)
    (rid : Nat) (hrid : bus.routeId = some rid)
    (route : Route) (hroute : db.routes.find? (fun r => r.id == rid) = some route) :
    ∃ payload,
      handleBookingConfirm db now data verification gas = (db, .ok payload, []) ∧
      payload.duplicate = true ∧
      payload.bookingIds =
        (existingBookingsForRef db data.paystackRef).map
          (fun r => "ELITE-" ++ natToString r.id) := by
  have hne : existingBookingsForRef db data.paystackRef ≠ [] :=
    List.ne_nil_of_mem (mem_existingBookingsForRef hb hm hbus hrid hroute)
  simp only [handleBookingConfirm, hresolve, hcap, hraw, hkeys, href, ne_eq,
    not_false_eq_true, if_false, if_true, ite_true, ite_false]
  rw [dif_pos hne]
  exact ⟨_, rfl, rfl, rfl⟩

/-- A one-bus, one-route store used by witnesses. -/
def busDB : DB :=
  { routes := [{ id := 1, name := "Accra Kumasi" }],
    buses := [{ id := 1, routeId := some 1, name := "Elite 1", capacity := 50,
                availableSeats := 50, price := 50 }],
    trips := [], passengers := [], users := [], sessions := [], bookings := [],
    seatLocks := [], receipts := [], nextBookingId := 1, nextPassengerId := 1,
    nextLockId := 1, nextUserId := 1 }

/-- A single-seat confirm request used by witnesses. -/
def confirmReq : ConfirmData :=
  { firstName := "Ama", lastName := "Mensah", email := "ama@example.com",
    phone := "0551234567", nokName := none, nokPhone := none,
    seat := some "5", seats := ["5"], busId := 1, price := some 50,
    unitPrice := some 50, lockId := some "L1", paystackRef := "R1",
    tripId := none }

/-! ### C4: rollback on a refused seat insert -/

/-- The booking row built by a successful conditional insert. -/
def newBooking (db : DB) (p : BookingInsertPayload) : Booking :=
  { id := db.nextBookingId, passengerId := p.passengerId, busId := p.busId,
    tripId := p.tripId, seatNumber := p.seatNumber, pricePaid := p.pricePaid,
    status := "confirmed", externalRef := p.externalRef }

theorem insertConfirmedBookingAtomic_refused (d : DB) (p : BookingInsertPayload)
    (hc : bookingConflictExists d.bookings p.busId p.tripId p.seatNumber
      (p.legacySeatNumber.getD p.seatNumber) = true) :
    insertConfirmedBookingAtomic d p = (d, none) := by
  unfold insertConfirmedBookingAtomic
  rw [if_pos hc]

theorem insertConfirmedBookingAtomic_inserted (d : DB) (p : BookingInsertPayload)
    (hc : bookingConflictExists d.bookings p.busId p.tripId p.seatNumber
      (p.legacySeatNumber.getD p.seatNumber) = false) :
    insertConfirmedBookingAtomic d p =
      ({ d with bookings := d.bookings ++ [newBooking d p],
                nextBookingId := d.nextBookingId + 1 }, some d.nextBookingId) := by
  unfold insertConfirmedBookingAtomic
  rw [if_neg (by rw [hc]; exact Bool.false_ne_true)]
  rfl

theorem bookingConflictExists_append_left (base extra : List Booking)
    {busId : Nat} {tk : Option Nat} {s leg : String}
    (h : bookingConflictExists base busId tk s leg = true) :
    bookingConflictExists (base ++ extra) busId tk s leg = true := by
  unfold bookingConflictExists at *
  rw [List.any_append, h, Bool.true_or]

/-- Unfolding equation of the insert loop on a nonempty seat list. -/
theorem insertSeatsLoop_cons (busId : Nat) (tripKey : Option Nat) (pid : Nat)
    (price : Rat) (ref : String) (single : Bool) (dbL : DB) (k : String)
    (rest : List String) (created : List Nat) :
    insertSeatsLoop busId tripKey pid price ref single dbL (k :: rest) created =
      match insertConfirmedBookingAtomic dbL
          (seatPayload busId tripKey pid price ref single k) with
      | (db', some bid) =>
        insertSeatsLoop busId tripKey pid price ref single db' rest (created ++ [bid])
      | (db', none) =>
        ({ db' with bookings := db'.bookings.filter (fun b => !(created.contains b.id)) },
          .error k) := rfl

/-- Behaviour of the per-seat insert loop when it stops on a refused insert:
the rollback deletes exactly the rows created by this request, and the loop
never touches the passengers table.  Moreover a seat that already conflicts
in the pre-request bookings forces the loop to stop. -/
theorem insertSeatsLoop_error_state (busId : Nat) (tripKey : Option Nat)
    (pid : Nat) (price : Rat) (ref : String) (single : Bool) :
    ∀ (seats : List String) (dbL : DB) (created : List Nat)
      (base extra : List Booking),
      dbL.bookings = base ++ extra →
      (∀ bk ∈ extra, bk.id ∈ created) →
      (∀ bk ∈ base, bk.id ∉ created ∧ bk.id < dbL.nextBookingId) →
      (∀ db2 k, insertSeatsLoop busId tripKey pid price ref single dbL seats created
          = (db2, .error k) →
        db2.bookings = base ∧ db2.passengers = dbL.passengers) ∧
      ((∃ k ∈ seats, bookingConflictExists base busId tripKey k
          ((canonicalSeatToLegacy k).getD k) = true) →
        ∃ db2 k, insertSeatsLoop busId tripKey pid price ref single dbL seats created
          = (db2, .error k)) := by
  intro seats
  induction seats with
  | nil =>
    intro dbL created base extra hbase hextra hids
    constructor
    · intro db2 k h
      exact absurd (congrArg Prod.snd h) (by simp [insertSeatsLoop])
    · rintro ⟨k, hk, -⟩
      exact absurd hk (by simp)
  | cons k rest ih =>
    intro dbL created base extra hbase hextra hids
    by_cases hc : bookingConflictExists dbL.bookings busId tripKey k
        ((canonicalSeatToLegacy k).getD k) = true
    · -- the insert of `k` is refused: the loop rolls back and errors out
      have hstep : insertSeatsLoop busId tripKey pid price ref single dbL
          (k :: rest) created =
          ({ dbL with bookings := dbL.bookings.filter (fun b => !(created.contains b.id)) },
            .error k) := by
        rw [insertSeatsLoop_cons,
          insertConfirmedBookingAtomic_refused dbL
            (seatPayload busId tripKey pid price ref single k) hc]
      constructor
      · intro db2 k' h
        rw [hstep] at h
        have h1 : ({ dbL with bookings := dbL.bookings.filter (fun b => !(created.contains b.id)) } : DB)
            = db2 := congrArg Prod.fst h
        refine ⟨?_, by rw [← h1]⟩
        rw [← h1]
        show (dbL.bookings.filter (fun b => !(created.contains b.id))) = base
        rw [hbase, List.filter_append]
        have hbase' : base.filter (fun b => !(created.contains b.id)) = base := by
          apply List.filter_eq_self.mpr
          intro b hb
          simpa using (hids b hb).1
        have hextra' : extra.filter (fun b => !(created.contains b.id)) = [] := by
          apply List.filter_eq_nil_iff.mpr
          intro b hb
          simpa using hextra b hb
        rw [hbase', hextra', List.append_nil]
      · intro
        exact ⟨_, k, hstep⟩
    · -- the insert of `k` succeeds: recurse
      have hc' : bookingConflictExists dbL.bookings busId tripKey k
          ((canonicalSeatToLegacy k).getD k) = false := by
        simpa using hc
      have hstep : insertSeatsLoop busId tripKey pid price ref single dbL
          (k :: rest) created =
          insertSeatsLoop busId tripKey pid price ref single
            { dbL with
                bookings := dbL.bookings ++
                  [newBooking dbL (seatPayload busId tripKey pid price ref single k)],
                nextBookingId := dbL.nextBookingId + 1 }
            rest (created ++ [dbL.nextBookingId]) := by
        rw [insertSeatsLoop_cons,
          insertConfirmedBookingAtomic_inserted dbL
            (seatPayload busId tripKey pid price ref single k) hc']
      have hnext := ih
        { dbL with
            bookings := dbL.bookings ++
              [newBooking dbL (seatPayload busId tripKey pid price ref single k)],
            nextBookingId := dbL.nextBookingId + 1 }
        (created ++ [dbL.nextBookingId]) base
        (extra ++ [newBooking dbL (seatPayload busId tripKey pid price ref single k)])
        (by simp [hbase])
        (by
          intro bk hbk
          rcases List.mem_append.mp hbk with hbk | hbk
          · simp [hextra bk hbk]
          · simp only [List.mem_singleton] at hbk
            simp [hbk, newBooking])
        (by
          intro bk hbk
          have hb := hids bk hbk
          constructor
          · simp only [List.mem_append, List.mem_singleton]
            rintro (h | h)
            · exact hb.1 h
            · have := hb.2
              omega
          · have := hb.2
            simp only
            omega)
      constructor
      · intro db2 k' h
        rw [hstep] at h
        exact ⟨(hnext.1 db2 k' h).1, (hnext.1 db2 k' h).2⟩
      · rintro ⟨k0, hk0, hconf0⟩
        rcases List.mem_cons.mp hk0 with rfl | hk0
        · exact absurd (bookingConflictExists_append_left base extra hconf0)
            (by rw [← hbase, hc']; exact Bool.false_ne_true)
        · rw [hstep]
          exact hnext.2 ⟨k0, hk0, hconf0⟩

/-- C4: when a per-seat conditional insert is refused because a confirmed
booking for that (bus, trip, seat) already exists, `handleBookingConfirm`
deletes every booking row inserted earlier in the request and the passenger
row it created, fails with `Seat already booked: <seat>`, and leaves the
bookings and passengers tables exactly as before the request. -/
theorem seatConflict_rolls_back (db : DB) (now : Int) (data : ConfirmData)
    (v : VerifyResult) (gas : Option String) (trip : Option Trip) (cap : Nat)
    (seatKeys : List String) (ownedLocks : List SeatLock)
    (hresolve : resolveTripForBus db data.busId data.tripId = .ok trip)
    (hcap : getBusCapacity db data.busId = .ok cap)
    (hraw : rawSeatListOf data ≠ [])
    (hkeys : collectSeatKeys cap (rawSeatListOf data) [] = some seatKeys)
    (href : data.paystackRef ≠ "")
    (hdup : existingBookingsForRef db data.paystackRef = [])
    (hsucc : v.status = "success")
    (hnomm : (match data.price with
      | some p => v.amountKobo != jsRound (p * 100)
      | none => false) = false)
    (hlocks : collectOwnedLocks db.seatLocks now data.busId
      (Option.map (fun x => x.id) trip) data.lockId cap seatKeys = .ok ownedLocks)
    (hconflict : ∃ k ∈ seatKeys, bookingConflictExists db.bookings data.busId
      (Option.map (fun x => x.id) trip) k ((canonicalSeatToLegacy k).getD k) = true)
    (hbb : ∀ b ∈ db.bookings, b.id < db.nextBookingId)
    (hpb : ∀ q ∈ db.passengers, q.id < db.nextPassengerId) :
    ∃ db2 k,
      handleBookingConfirm db now data (.ok v) gas =
        (db2, .err ("Seat already booked: " ++ k), []) ∧
      db2.bookings = db.bookings ∧ db2.passengers = db.passengers := by
  obtain ⟨dbE, k, hloopEq⟩ :=
    (insertSeatsLoop_error_state data.busId (Option.map (fun x => x.id) trip)
      db.nextPassengerId
      (match data.unitPrice with
        | some u => if 0 < u then u else (data.price.getD 0) / (seatKeys.length : Rat)
        | none => (data.price.getD 0) / (seatKeys.length : Rat))
      data.paystackRef (seatKeys.length == 1) seatKeys
      { db with
          passengers := db.passengers ++
            [{ id := db.nextPassengerId, firstName := data.firstName,
               lastName := data.lastName, email := data.email,
               phone := data.phone, nokName := data.nokName,
               nokPhone := data.nokPhone }],
          nextPassengerId := db.nextPassengerId + 1 }
      [] db.bookings [] (by simp) (by simp)
      (fun bk hbk => ⟨by simp, hbb bk hbk⟩)).2 hconflict
  have hstate :=
    (insertSeatsLoop_error_state data.busId (Option.map (fun x => x.id) trip)
      db.nextPassengerId
      (match data.unitPrice with
        | some u => if 0 < u then u else (data.price.getD 0) / (seatKeys.length : Rat)
        | none => (data.price.getD 0) / (seatKeys.length : Rat))
      data.paystackRef (seatKeys.length == 1) seatKeys
      { db with
          passengers := db.passengers ++
            [{ id := db.nextPassengerId, firstName := data.firstName,
               lastName := data.lastName, email := data.email,
               phone := data.phone, nokName := data.nokName,
               nokPhone := data.nokPhone }],
          nextPassengerId := db.nextPassengerId + 1 }
      [] db.bookings [] (by simp) (by simp)
      (fun bk hbk => ⟨by simp, hbb bk hbk⟩)).1 dbE k hloopEq
  simp only [handleBookingConfirm, hresolve, hcap, hraw, hkeys, href, hdup,
    hsucc, hnomm, hlocks, ne_eq, not_false_eq_true, if_false, if_true,
    ite_true, ite_false, Bool.false_eq_true]
  rw [dif_neg (by simp [hdup])]
  rw [hloopEq]
  refine ⟨_, k, rfl, ?_, ?_⟩
  · exact hstate.1
  · show dbE.passengers.filter (fun q => !(q.id == db.nextPassengerId)) = db.passengers
    rw [hstate.2]
    show (db.passengers ++ _).filter (fun q => !(q.id == db.nextPassengerId)) = _
    rw [List.filter_append]
    have h1 : db.passengers.filter (fun q => !(q.id == db.nextPassengerId))
        = db.passengers := by
      apply List.filter_eq_self.mpr
      intro q hq
      have := hpb q hq
      simp only [Bool.not_eq_eq_eq_not, Bool.not_true, beq_eq_false_iff_ne, ne_eq]
      omega
    have h2 : List.filter (fun q => !(q.id == db.nextPassengerId))
        [({ id := db.nextPassengerId, firstName := data.firstName,
            lastName := data.lastName, email := data.email,
            phone := data.phone, nokName := data.nokName,
            nokPhone := data.nokPhone } : Passenger)] = [] := by
      simp
    rw [h1, h2, List.append_nil]

/-- `busDB` with a prior confirmed booking stored under reference `R1`. -/
def dupDB : DB :=
  { busDB with
    bookings := [{ id := 1, passengerId := 1, busId := 1, tripId := none,
                   seatNumber := "5", pricePaid := 50, status := "confirmed",
                   externalRef := "R1" }],
    nextBookingId := 2,
    nextPassengerId := 2 }

/-- `busDB` with seat 5 already confirm-booked under another reference and an
unexpired lock held by session `L1`. -/
def conflictDB : DB :=
  { busDB with
    bookings := [{ id := 1, passengerId := 1, busId := 1, tripId := none,
                   seatNumber := "5", pricePaid := 50, status := "confirmed",
                   externalRef := "OTHER" }],
    seatLocks := [{ id := 1, busId := 1, tripId := none, seatNumber := "5",
                    lockedBy := "L1", expiresAt := 100 }],
    nextBookingId := 2,
    nextPassengerId := 2,
    nextLockId := 2 }

/-- `confirmReq` without a caller-supplied total price. -/
def conflictReq : ConfirmData := { confirmReq with price := none }

/-- Witness for `seatConflict_rolls_back`: finalizing seat 5 against
`conflictDB` is refused and rolled back. -/
theorem seatConflict_rolls_back_witness :
    ∃ db2 k,
      handleBookingConfirm conflictDB 0 conflictReq
          (.ok { status := "success", amountKobo := 5000 }) none =
        (db2, .err ("Seat already booked: " ++ k), []) ∧
      db2.bookings = conflictDB.bookings ∧ db2.passengers = conflictDB.passengers :=
  seatConflict_rolls_back conflictDB 0 conflictReq
    { status := "success", amountKobo := 5000 } none none 50 ["5"]
    [{ id := 1, busId := 1, tripId := none, seatNumber := "5", lockedBy := "L1",
       expiresAt := 100 }]
    rfl rfl (by decide) (by decide) (by decide) (by decide) rfl rfl rfl
    ⟨"5", by decide, by decide⟩ (by decide) (by decide)

/-- Witness for `confirm_idempotent_over_reference`: a retry of reference
`R1` returns the stored booking without consulting the processor (the
verification outcome is an error and is never looked at). -/
theorem confirm_idempotent_witness :
    ∃ payload,
      handleBookingConfirm dupDB 0 confirmReq (.error "no verify") none =
        (dupDB, .ok payload, []) ∧
      payload.duplicate = true ∧
      payload.bookingIds =
        (existingBookingsForRef dupDB confirmReq.paystackRef).map
          (fun r => "ELITE-" ++ natToString r.id) :=
  confirm_idempotent_over_reference dupDB 0 confirmReq (.error "no verify") none
    none 50 ["5"] rfl rfl (by decide) (by decide) (by decide)
    { id := 1, passengerId := 1, busId := 1, tripId := none, seatNumber := "5",
      pricePaid := 50, status := "confirmed", externalRef := "R1" }
    (List.Mem.head _) (by decide)
    { id := 1, routeId := some 1, name := "Elite 1", capacity := 50,
      availableSeats := 50, price := 50 }
    rfl 1 rfl { id := 1, name := "Accra Kumasi" } rfl

/-! ### C6: seat availability engine -/

theorem seatSortVal_natToString (n : Nat) : seatSortVal (natToString n) = n := by
  simpa [seatSortVal, natToString] using digitsToNat_natDigits n

theorem mem_uniqueNormalizedSeatList {rows : List String} {cap : Nat} {s : String} :
    s ∈ uniqueNormalizedSeatList rows cap ↔
      ∃ r ∈ rows, normalizeSeatNumberRaw r cap = some s := by
  unfold uniqueNormalizedSeatList
  rw [mem_sortedBy, List.mem_dedup, List.mem_filterMap]

theorem pairwise_lt_of_le_nodup {l : List String}
    (hle : l.Pairwise (fun a b => seatSortVal a ≤ seatSortVal b))
    (hnd : l.Nodup)
    (hnat : ∀ s ∈ l, ∃ n, s = natToString n) :
    l.Pairwise (fun a b => seatSortVal a < seatSortVal b) := by
  have hand := hle.and hnd
  refine hand.imp_of_mem ?_
  intro a b ha hb hab
  obtain ⟨n, rfl⟩ := hnat a ha
  obtain ⟨m, rfl⟩ := hnat b hb
  obtain ⟨hle', hne⟩ := hab
  rw [seatSortVal_natToString] at hle' ⊢
  rw [seatSortVal_natToString] at hle' ⊢
  have hnm : n ≠ m := fun h => hne (by rw [h])
  omega

theorem uniqueNormalizedSeatList_sorted (rows : List String) (cap : Nat) :
    (uniqueNormalizedSeatList rows cap).Pairwise
      (fun a b => seatSortVal a < seatSortVal b) := by
  apply pairwise_lt_of_le_nodup
  · exact pairwise_sortedBy _ _
  · exact nodup_sortedBy (List.nodup_dedup _)
  · intro s hs
    obtain ⟨r, -, hnorm⟩ := mem_uniqueNormalizedSeatList.mp hs
    obtain ⟨n, -, -, -, rfl⟩ := normalizeSeatNumberRaw_eq_some hnorm
    exact ⟨n, rfl⟩

theorem mem_ownLockedSeats {locks : List SeatLock} {now : Int} {busId : Nat}
    {tk : Option Nat} {own : Option String} {cap : Nat} {s : String} :
    s ∈ ownLockedSeats locks now busId tk own cap ↔
      ∃ l ∈ activeLocksForBusTrip locks now busId tk,
        normalizeSeatNumberRaw l.seatNumber cap = some s ∧ own = some l.lockedBy := by
  unfold ownLockedSeats
  rw [mem_sortedBy, List.mem_dedup, List.mem_filterMap]
  constructor
  · rintro ⟨l, hl, hf⟩
    refine ⟨l, hl, ?_⟩
    rcases hnorm : normalizeSeatNumberRaw l.seatNumber cap with _ | k <;>
      rw [hnorm] at hf
    · simp at hf
    · by_cases hc : own = some l.lockedBy
      · simp only [Option.some_bind, if_pos hc, Option.some.injEq] at hf
        exact ⟨congrArg Option.some hf, hc⟩
      · simp [hc] at hf
  · rintro ⟨l, hl, hnorm, hc⟩
    refine ⟨l, hl, ?_⟩
    rw [hnorm]
    simp [hc]

theorem mem_otherLockedSeats {locks : List SeatLock} {now : Int} {busId : Nat}
    {tk : Option Nat} {own : Option String} {cap : Nat} {s : String} :
    s ∈ otherLockedSeats locks now busId tk own cap ↔
      ∃ l ∈ activeLocksForBusTrip locks now busId tk,
        normalizeSeatNumberRaw l.seatNumber cap = some s ∧ own ≠ some l.lockedBy := by
  unfold otherLockedSeats
  rw [mem_sortedBy, List.mem_dedup, List.mem_filterMap]
  constructor
  · rintro ⟨l, hl, hf⟩
    refine ⟨l, hl, ?_⟩
    rcases hnorm : normalizeSeatNumberRaw l.seatNumber cap with _ | k <;>
      rw [hnorm] at hf
    · simp at hf
    · by_cases hc : own = some l.lockedBy
      · simp [hc] at hf
      · simp only [Option.some_bind, if_neg hc, Option.some.injEq] at hf
        exact ⟨congrArg Option.some hf, hc⟩
  · rintro ⟨l, hl, hnorm, hc⟩
    refine ⟨l, hl, ?_⟩
    rw [hnorm]
    simp [hc]

theorem lockSeats_sorted (locks : List SeatLock) (now : Int) (busId : Nat)
    (tk : Option Nat) (own : Option String) (cap : Nat) :
    (ownLockedSeats locks now busId tk own cap).Pairwise
      (fun a b => seatSortVal a < seatSortVal b) ∧
    (otherLockedSeats locks now busId tk own cap).Pairwise
      (fun a b => seatSortVal a < seatSortVal b) := by
  constructor <;>
    · apply pairwise_lt_of_le_nodup
      · exact pairwise_sortedBy _ _
      · exact nodup_sortedBy (List.nodup_dedup _)
      · intro s hs
        first
        | (obtain ⟨l, -, hnorm, -⟩ := mem_ownLockedSeats.mp hs
           obtain ⟨n, -, -, -, rfl⟩ := normalizeSeatNumberRaw_eq_some hnorm
           exact ⟨n, rfl⟩)
        | (obtain ⟨l, -, hnorm, -⟩ := mem_otherLockedSeats.mp hs
           obtain ⟨n, -, -, -, rfl⟩ := normalizeSeatNumberRaw_eq_some hnorm
           exact ⟨n, rfl⟩)

theorem mem_allSeats {cap : Nat} {s : String} :
    s ∈ (List.range cap).map (fun i => natToString (i + 1)) ↔
      ∃ n, 1 ≤ n ∧ n ≤ cap ∧ s = natToString n := by
  rw [List.mem_map]
  constructor
  · rintro ⟨i, hi, rfl⟩
    rw [List.mem_range] at hi
    exact ⟨i + 1, by omega, by omega, rfl⟩
  · rintro ⟨n, h1, h2, rfl⟩
    refine ⟨n - 1, by rw [List.mem_range]; omega, by congr 1; omega⟩

/-- C6: the seat-availability result for a bus and its resolved trip.
`available` consists exactly of the canonical seats `1..capacity` that are
neither booked nor locked by another session; `booked`, `locked` and
`own_locked` contain exactly the normalized seats of the corresponding rows
(so canonical and legacy spellings of one seat collapse into a single entry)
and are strictly sorted numerically; seats locked by the caller alone stay
in `available` while also being reported in `own_locked`. -/
theorem busSeats_availability (db : DB) (now : Int) (busId : Nat)
    (tripParam : Option Nat) (lockParam : Option String) (trip : Option Trip)
    (cap : Nat)
    (hresolve : resolveTripForBus db busId tripParam = .ok trip)
    (hcap : getBusCapacity db busId = .ok cap) :
    ∃ r, handleGetBusSeats db now busId tripParam lockParam = .ok r ∧
      (∀ s, s ∈ r.booked ↔
        ∃ b ∈ confirmedRowsForBusTrip db.bookings busId (Option.map (fun x => x.id) trip),
          normalizeSeatNumberRaw b.seatNumber cap = some s) ∧
      (∀ s, s ∈ r.locked ↔
        ∃ l ∈ activeLocksForBusTrip db.seatLocks now busId (Option.map (fun x => x.id) trip),
          normalizeSeatNumberRaw l.seatNumber cap = some s ∧
          requestedLockId lockParam ≠ some l.lockedBy) ∧
      (∀ s, s ∈ r.ownLocked ↔
        ∃ l ∈ activeLocksForBusTrip db.seatLocks now busId (Option.map (fun x => x.id) trip),
          normalizeSeatNumberRaw l.seatNumber cap = some s ∧
          requestedLockId lockParam = some l.lockedBy) ∧
      (∀ s, s ∈ r.available ↔
        (∃ n, 1 ≤ n ∧ n ≤ cap ∧ s = natToString n) ∧ s ∉ r.booked ∧ s ∉ r.locked) ∧
      (∀ s, s ∈ r.ownLocked → s ∉ r.booked → s ∉ r.locked → s ∈ r.available) ∧
      r.booked.Pairwise (fun a b => seatSortVal a < seatSortVal b) ∧
      r.locked.Pairwise (fun a b => seatSortVal a < seatSortVal b) ∧
      r.ownLocked.Pairwise (fun a b => seatSortVal a < seatSortVal b) := by
  have hrun : handleGetBusSeats db now busId tripParam lockParam = .ok
      { tripId := Option.map (fun x => x.id) trip,
        available := ((List.range cap).map (fun i => natToString (i + 1))).filter
          (fun s =>
            !((listConfirmedSeatNumbersForBusTrip db.bookings busId
                (Option.map (fun x => x.id) trip) cap).contains s) &&
            !((otherLockedSeats db.seatLocks now busId
                (Option.map (fun x => x.id) trip)
                (requestedLockId lockParam) cap).contains s)),
        locked := otherLockedSeats db.seatLocks now busId
          (Option.map (fun x => x.id) trip) (requestedLockId lockParam) cap,
        ownLocked := ownLockedSeats db.seatLocks now busId
          (Option.map (fun x => x.id) trip) (requestedLockId lockParam) cap,
        booked := listConfirmedSeatNumbersForBusTrip db.bookings busId
          (Option.map (fun x => x.id) trip) cap } := by
    simp only [handleGetBusSeats, hresolve, hcap]
  refine ⟨_, hrun, ?_, ?_, ?_, ?_, ?_, ?_, ?_, ?_⟩
  · intro s
    exact mem_uniqueNormalizedSeatList.trans
      (by
        constructor
        · rintro ⟨x, hx, hn⟩
          obtain ⟨b, hb, rfl⟩ := List.mem_map.mp hx
          exact ⟨b, hb, hn⟩
        · rintro ⟨b, hb, hn⟩
          exact ⟨b.seatNumber, List.mem_map.mpr ⟨b, hb, rfl⟩, hn⟩)
  · intro s
    exact mem_otherLockedSeats
  · intro s
    exact mem_ownLockedSeats
  · intro s
    rw [List.mem_filter, mem_allSeats]
    constructor
    · rintro ⟨h1, h2⟩
      simp only [Bool.and_eq_true, Bool.not_eq_eq_eq_not, Bool.not_true,
        List.contains, List.elem_eq_mem, decide_eq_false_iff_not] at h2
      exact ⟨h1, h2.1, h2.2⟩
    · rintro ⟨h1, h2, h3⟩
      refine ⟨h1, ?_⟩
      simp only [Bool.and_eq_true, Bool.not_eq_eq_eq_not, Bool.not_true,
        List.contains, List.elem_eq_mem, decide_eq_false_iff_not]
      exact ⟨h2, h3⟩
  · intro s hown hnb hnl
    rw [List.mem_filter, mem_allSeats]
    obtain ⟨l, -, hnorm, -⟩ := mem_ownLockedSeats.mp hown
    obtain ⟨n, -, hn2, hn3, rfl⟩ := normalizeSeatNumberRaw_eq_some hnorm
    have hcapPos : 0 < cap := by
      unfold getBusCapacity at hcap
      rcases hfb : findBus db busId with _ | bus <;> rw [hfb] at hcap
      · exact absurd hcap (by simp)
      · simp only [Except.ok.injEq] at hcap
        split at hcap <;> omega
    rw [if_neg (by omega)] at hn3
    refine ⟨⟨n, hn2, hn3, rfl⟩, ?_⟩
    simp only [Bool.and_eq_true, Bool.not_eq_eq_eq_not, Bool.not_true,
      List.contains, List.elem_eq_mem, decide_eq_false_iff_not]
    exact ⟨hnb, hnl⟩
  · exact uniqueNormalizedSeatList_sorted _ _
  · exact (lockSeats_sorted _ _ _ _ _ _).2
  · exact (lockSeats_sorted _ _ _ _ _ _).1

/-- An active trip used by the seat-availability witness. -/
def seatsTrip : Trip :=
  { id := 9, routeId := 1, busId := 5, price := 50, status := "active" }

/-- A database with a 4-seat bus, one confirmed booking on seat 2, a lock on
seat 1 held by the caller and a lock on seat 3 held by someone else. -/
def seatsDB : DB :=
  { routes := [{ id := 1, name := "Accra Kumasi" }],
    buses := [{ id := 5, routeId := some 1, name := "Elite 5", capacity := 4,
                availableSeats := 4, price := 50 }],
    trips := [seatsTrip], passengers := [], users := [], sessions := [],
    bookings := [{ id := 1, passengerId := 1, busId := 5, tripId := some 9,
                   seatNumber := "2", pricePaid := 50, status := "confirmed",
                   externalRef := "R9" }],
    seatLocks := [{ id := 1, busId := 5, tripId := some 9, seatNumber := "1",
                    lockedBy := "me", expiresAt := 2000 },
                  { id := 2, busId := 5, tripId := some 9, seatNumber := "3",
                    lockedBy := "you", expiresAt := 2000 }],
    receipts := [], nextBookingId := 2, nextPassengerId := 2,
    nextLockId := 3, nextUserId := 1 }

/-- Witness for `busSeats_availability`: on `seatsDB` at time 100 with the
caller holding lock id "me", the theorem applies with the resolved trip and a
capacity of 4. -/
theorem busSeats_availability_witness :
    ∃ r, handleGetBusSeats seatsDB 100 5 none (some "me") = .ok r ∧
      (∀ s, s ∈ r.booked ↔
        ∃ b ∈ confirmedRowsForBusTrip seatsDB.bookings 5
            (Option.map (fun x => x.id) (some seatsTrip)),
          normalizeSeatNumberRaw b.seatNumber 4 = some s) ∧
      (∀ s, s ∈ r.locked ↔
        ∃ l ∈ activeLocksForBusTrip seatsDB.seatLocks 100 5
            (Option.map (fun x => x.id) (some seatsTrip)),
          normalizeSeatNumberRaw l.seatNumber 4 = some s ∧
          requestedLockId (some "me") ≠ some l.lockedBy) ∧
      (∀ s, s ∈ r.ownLocked ↔
        ∃ l ∈ activeLocksForBusTrip seatsDB.seatLocks 100 5
            (Option.map (fun x => x.id) (some seatsTrip)),
          normalizeSeatNumberRaw l.seatNumber 4 = some s ∧
          requestedLockId (some "me") = some l.lockedBy) ∧
      (∀ s, s ∈ r.available ↔
        (∃ n, 1 ≤ n ∧ n ≤ 4 ∧ s = natToString n) ∧ s ∉ r.booked ∧ s ∉ r.locked) ∧
      (∀ s, s ∈ r.ownLocked → s ∉ r.booked → s ∉ r.locked → s ∈ r.available) ∧
      r.booked.Pairwise (fun a b => seatSortVal a < seatSortVal b) ∧
      r.locked.Pairwise (fun a b => seatSortVal a < seatSortVal b) ∧
      r.ownLocked.Pairwise (fun a b => seatSortVal a < seatSortVal b) :=
  busSeats_availability seatsDB 100 5 none (some "me") (some seatsTrip) 4
    (by rfl) (by rfl)

/-- Witness for `paymentAmountMismatch_rejected`: verify returns amount 4000
instead of the expected 5000 pesewas. -/
theorem paymentAmountMismatch_witness :
    handleBookingConfirm busDB 0 confirmReq
      (.ok { status := "success", amountKobo := 4000 }) none =
      (busDB, .err "Payment amount mismatch", []) :=
  paymentAmountMismatch_rejected busDB 0 confirmReq
    { status := "success", amountKobo := 4000 } none none 50 ["5"] 50
    rfl rfl (by decide) (by decide) (by decide) rfl
    rfl rfl (by unfold jsRound; norm_num [Rat.floor])

/-! ### C2: seat-lock exclusivity -/

/-- The number of unexpired locks visible to the lock manager's duplicate
check: rows of the `(busId, tripKey)` query scope whose normalized seat is
`key`. -/
def lockScopeCount (locks : List SeatLock) (now : Int) (busId : Nat)
    (tk : Option Nat) (key : String) (cap : Nat) : Nat :=
  (activeLocksForBusTrip locks now busId tk).countP
    (fun l => normalizeSeatNumberRaw l.seatNumber cap == some key)

/-- The lock-table invariant: every `(bus, trip-scope, normalized seat)`
combination has at most one unexpired lock row. -/
def LockUniq (locks : List SeatLock) (now : Int) : Prop :=
  ∀ busId tk key cap, lockScopeCount locks now busId tk key cap ≤ 1

/-- Every lock row stores the canonical seat spelling (the manager only ever
inserts normalizer outputs). -/
def LocksCanonical (locks : List SeatLock) : Prop :=
  ∀ l ∈ locks, ∃ n, 1 ≤ n ∧ l.seatNumber = natToString n

theorem lockScopeCount_some (L : List SeatLock) (now : Int) (busId t : Nat)
    (key : String) (cap : Nat) :
    lockScopeCount L now busId (some t) key cap =
      L.countP (fun l => (normalizeSeatNumberRaw l.seatNumber cap == some key) &&
        (l.busId == busId && l.tripId == some t && decide (now < l.expiresAt))) := by
  unfold lockScopeCount activeLocksForBusTrip
  rw [List.countP_filter]

theorem lockScopeCount_none (L : List SeatLock) (now : Int) (busId : Nat)
    (key : String) (cap : Nat) :
    lockScopeCount L now busId none key cap =
      L.countP (fun l => (normalizeSeatNumberRaw l.seatNumber cap == some key) &&
        (l.busId == busId && decide (now < l.expiresAt))) := by
  unfold lockScopeCount activeLocksForBusTrip
  rw [List.countP_filter]

theorem mem_activeLocksForBusTrip {L : List SeatLock} {now : Int} {busId : Nat}
    {tk : Option Nat} {l : SeatLock} :
    l ∈ activeLocksForBusTrip L now busId tk ↔
      l ∈ L ∧ l.busId = busId ∧ now < l.expiresAt ∧
      (∀ t, tk = some t → l.tripId = some t) := by
  unfold activeLocksForBusTrip
  cases tk with
  | none =>
    rw [List.mem_filter]
    simp only [Bool.and_eq_true, beq_iff_eq, decide_eq_true_eq]
    constructor
    · rintro ⟨h1, h2, h3⟩
      exact ⟨h1, h2, h3, fun t ht => by cases ht⟩
    · rintro ⟨h1, h2, h3, -⟩
      exact ⟨h1, h2, h3⟩
  | some t =>
    rw [List.mem_filter]
    simp only [Bool.and_eq_true, beq_iff_eq, decide_eq_true_eq]
    constructor
    · rintro ⟨h1, ⟨h2, h4⟩, h3⟩
      exact ⟨h1, h2, h3, fun u hu => by cases hu; exact h4⟩
    · rintro ⟨h1, h2, h3, h4⟩
      exact ⟨h1, ⟨h2, h4 t rfl⟩, h3⟩

theorem activeLocks_sublist {L L' : List SeatLock} (h : List.Sublist L' L) (now : Int)
    (busId : Nat) (tk : Option Nat) :
    List.Sublist (activeLocksForBusTrip L' now busId tk)
      (activeLocksForBusTrip L now busId tk) := by
  unfold activeLocksForBusTrip
  cases tk <;> exact h.filter _

theorem lockUniq_sublist {L L' : List SeatLock} (h : List.Sublist L' L) {now : Int}
    (hinv : LockUniq L now) : LockUniq L' now := by
  intro busId tk key cap
  exact le_trans ((activeLocks_sublist h now busId tk).countP_le _) (hinv busId tk key cap)

theorem lockUniq_mono {L : List SeatLock} {now now₂ : Int} (h : now ≤ now₂)
    (hinv : LockUniq L now) : LockUniq L now₂ := by
  intro busId tk key cap
  refine le_trans ?_ (hinv busId tk key cap)
  unfold lockScopeCount activeLocksForBusTrip
  cases tk <;>
    · refine List.Sublist.countP_le _ (List.monotone_filter_right _ ?_)
      intro l hl
      simp only [Bool.and_eq_true, decide_eq_true_eq] at hl ⊢
      obtain ⟨h1, h2⟩ := hl
      exact ⟨h1, by omega⟩

theorem locksCanonical_sublist {L L' : List SeatLock} (h : List.Sublist L' L)
    (hc : LocksCanonical L) : LocksCanonical L' :=
  fun l hl => hc l (h.mem hl)

theorem two_le_countP {p : α → Bool} :
    ∀ {l : List α} {a b : α}, a ∈ l → b ∈ l → a ≠ b → p a = true → p b = true →
      2 ≤ l.countP p := by
  intro l
  induction l with
  | nil => intro a b ha _ _ _ _; cases ha
  | cons x t ih =>
    intro a b ha hb hne hpa hpb
    rcases List.mem_cons.mp ha with rfl | hat
    · have hbt : b ∈ t := by
        rcases List.mem_cons.mp hb with rfl | hbt
        · exact absurd rfl hne
        · exact hbt
      rw [List.countP_cons, if_pos hpa]
      have : 0 < t.countP p := List.countP_pos_iff.mpr ⟨b, hbt, hpb⟩
      omega
    · rcases List.mem_cons.mp hb with rfl | hbt
      · rw [List.countP_cons, if_pos hpb]
        have : 0 < t.countP p := List.countP_pos_iff.mpr ⟨a, hat, hpa⟩
        omega
      · have := ih hat hbt hne hpa hpb
        rw [List.countP_cons]
        split <;> omega

theorem countP_le_one_eq {p : α → Bool} {l : List α} (h : l.countP p ≤ 1)
    {a b : α} (ha : a ∈ l) (hb : b ∈ l) (hpa : p a = true) (hpb : p b = true) :
    a = b := by
  by_contra hne
  exact absurd h (by have := two_le_countP ha hb hne hpa hpb; omega)

theorem countP_congr_mem {p q : α → Bool} :
    ∀ {l : List α}, (∀ a ∈ l, p a = q a) → l.countP p = l.countP q := by
  intro l
  induction l with
  | nil => intro _; rfl
  | cons x t ih =>
    intro h
    rw [List.countP_cons, List.countP_cons, h x (List.mem_cons_self x t),
      ih (fun a ha => h a (List.mem_cons_of_mem x ha))]

theorem nodup_map_inj {f : α → β} :
    ∀ {l : List α}, (l.map f).Nodup → ∀ a ∈ l, ∀ b ∈ l, f a = f b → a = b := by
  intro l
  induction l with
  | nil => intro _ a ha; cases ha
  | cons x t ih =>
    intro hn a ha b hb hfab
    rw [List.map_cons, List.nodup_cons] at hn
    rcases List.mem_cons.mp ha with rfl | hat
    · rcases List.mem_cons.mp hb with rfl | hbt
      · rfl
      · exact absurd (hfab ▸ List.mem_map_of_mem f hbt) hn.1
    · rcases List.mem_cons.mp hb with rfl | hbt
      · exact absurd (hfab ▸ List.mem_map_of_mem f hat) hn.1
      · exact ih hn.2 a hat b hbt hfab

/-- A normalizer output for a canonical seat string is the string itself. -/
theorem normalize_canonical_eq {n cap : Nat} {k : String}
    (h : normalizeSeatNumberRaw (natToString n) cap = some k) :
    k = natToString n := by
  obtain ⟨m, hm, -, -, rfl⟩ := normalizeSeatNumberRaw_eq_some h
  rw [seatVal_natToString] at hm
  injection hm with hnm
  rw [← hnm]

/-- Appending a fresh canonical lock row whose seat has no unexpired lock
anywhere on the bus preserves the uniqueness invariant. -/
theorem lockUniq_insert (L : List SeatLock) (now : Int) (busId : Nat)
    (row : SeatLock) (hbus : row.busId = busId)
    (hcanon : ∀ cap k, normalizeSeatNumberRaw row.seatNumber cap = some k →
      k = row.seatNumber)
    (hinv : LockUniq L now)
    (hempty : ∀ x ∈ L, x.busId = busId → now < x.expiresAt →
      ∀ cap, normalizeSeatNumberRaw x.seatNumber cap ≠ some row.seatNumber) :
    LockUniq (L ++ [row]) now := by
  intro b tk key cap
  unfold lockScopeCount
  have happ : activeLocksForBusTrip (L ++ [row]) now b tk =
      activeLocksForBusTrip L now b tk ++ activeLocksForBusTrip [row] now b tk := by
    unfold activeLocksForBusTrip
    cases tk <;> exact List.filter_append _ _
  rw [happ, List.countP_append]
  have hL : (activeLocksForBusTrip L now b tk).countP
      (fun l => normalizeSeatNumberRaw l.seatNumber cap == some key) =
      lockScopeCount L now b tk key cap := rfl
  have hsub : List.Sublist (activeLocksForBusTrip [row] now b tk) [row] := by
    unfold activeLocksForBusTrip
    cases tk <;> exact List.filter_sublist _
  have hc : (activeLocksForBusTrip [row] now b tk).countP
      (fun l => normalizeSeatNumberRaw l.seatNumber cap == some key) ≤ 1 := by
    refine le_trans (List.countP_le_length _) ?_
    simpa using hsub.length_le
  by_cases hcpos : 0 < (activeLocksForBusTrip [row] now b tk).countP
      (fun l => normalizeSeatNumberRaw l.seatNumber cap == some key)
  · obtain ⟨x, hx, hpx⟩ := List.countP_pos_iff.mp hcpos
    have hxrow : x = row := by
      have := hsub.mem hx
      simpa using this
    subst hxrow
    obtain ⟨-, hxb, -, -⟩ := mem_activeLocksForBusTrip.mp hx
    have hkey : key = x.seatNumber := hcanon cap key (beq_iff_eq.mp hpx)
    have ha0 : lockScopeCount L now b tk key cap = 0 := by
      unfold lockScopeCount
      rw [List.countP_eq_zero]
      intro y hy hpy
      obtain ⟨hyL, hyb, hyact, -⟩ := mem_activeLocksForBusTrip.mp hy
      exact hempty y hyL (by rw [hyb, ← hxb, hbus]) hyact cap
        (by rw [beq_iff_eq.mp hpy, hkey])
    rw [hL, ha0]
    omega
  · have hz : (activeLocksForBusTrip [row] now b tk).countP
        (fun l => normalizeSeatNumberRaw l.seatNumber cap == some key) = 0 := by
      omega
    rw [hL, hz]
    simpa using hinv b tk key cap

/-- Refreshing the expiry of one unexpired lock row (keyed by its unique id)
preserves the uniqueness invariant. -/
theorem lockUniq_update (L : List SeatLock) (now : Int) (m : SeatLock) (exp : Int)
    (hids : (L.map (fun l => l.id)).Nodup) (hm : m ∈ L)
    (hact : now < m.expiresAt) (hexp : now < exp)
    (hinv : LockUniq L now) :
    LockUniq (L.map (fun l =>
      if l.id == m.id then { l with expiresAt := exp } else l)) now := by
  intro b tk key cap
  have hmap : ∀ P : SeatLock → Bool, P { m with expiresAt := exp } = P m →
      L.countP (P ∘ (fun l =>
        if l.id == m.id then { l with expiresAt := exp } else l)) = L.countP P := by
    intro P hP
    apply countP_congr_mem
    intro l hl
    show P (if l.id == m.id then { l with expiresAt := exp } else l) = P l
    by_cases hid : (l.id == m.id) = true
    · have hlm : l = m := nodup_map_inj hids l hl m hm (beq_iff_eq.mp hid)
      subst hlm
      rw [if_pos hid, hP]
    · rw [if_neg hid]
  cases tk with
  | some t =>
    have hPm : (fun x : SeatLock =>
        (normalizeSeatNumberRaw x.seatNumber cap == some key) &&
        (x.busId == b && x.tripId == some t && decide (now < x.expiresAt)))
          { m with expiresAt := exp } =
        (fun x : SeatLock =>
        (normalizeSeatNumberRaw x.seatNumber cap == some key) &&
        (x.busId == b && x.tripId == some t && decide (now < x.expiresAt))) m := by
      simp only [decide_eq_true hexp, decide_eq_true hact]
    rw [lockScopeCount_some, List.countP_map, hmap _ hPm, ← lockScopeCount_some]
    exact hinv b (some t) key cap
  | none =>
    have hPm : (fun x : SeatLock =>
        (normalizeSeatNumberRaw x.seatNumber cap == some key) &&
        (x.busId == b && decide (now < x.expiresAt)))
          { m with expiresAt := exp } =
        (fun x : SeatLock =>
        (normalizeSeatNumberRaw x.seatNumber cap == some key) &&
        (x.busId == b && decide (now < x.expiresAt))) m := by
      simp only [decide_eq_true hexp, decide_eq_true hact]
    rw [lockScopeCount_none, List.countP_map, hmap _ hPm, ← lockScopeCount_none]
    exact hinv b none key cap

theorem resolveTripForBus_congr {d d' : DB} (h : d'.trips = d.trips)
    (busId : Nat) (tid : Option Nat) :
    resolveTripForBus d' busId tid = resolveTripForBus d busId tid := by
  unfold resolveTripForBus latestActiveTrip
  rw [h]

theorem getBusCapacity_congr {d d' : DB} (h : d'.buses = d.buses) (busId : Nat) :
    getBusCapacity d' busId = getBusCapacity d busId := by
  unfold getBusCapacity findBus
  rw [h]

theorem purgeSeatLocks_sublist (L : List SeatLock) (now : Int) (busId : Nat)
    (k leg : String) (tk : Option Nat) :
    List.Sublist (purgeSeatLocks L now busId k leg tk) L := by
  unfold purgeSeatLocks
  cases tk with
  | some t => exact (List.filter_sublist _).trans (List.filter_sublist _)
  | none => exact List.filter_sublist _

theorem mem_purgeSeatLocks {L : List SeatLock} {now : Int} {busId : Nat}
    {k leg : String} {tk : Option Nat} {x : SeatLock} :
    x ∈ purgeSeatLocks L now busId k leg tk ↔
      x ∈ L ∧
      (x.busId = busId → (x.seatNumber = k ∨ x.seatNumber = leg) →
        now < x.expiresAt ∧ ∀ t, tk = some t → x.tripId = some t) := by
  unfold purgeSeatLocks
  have hsplit : ∀ (c : Bool) (a : Int),
      (!(c && decide (a ≤ now))) = true ↔ c = false ∨ now < a := by
    intro c a
    rw [Bool.not_eq_true', Bool.and_eq_false_iff, decide_eq_false_iff_not]
    constructor
    · rintro (h | h)
      · exact Or.inl h
      · exact Or.inr (by omega)
    · rintro (h | h)
      · exact Or.inl h
      · exact Or.inr (by omega)
  have hbs : ∀ (hb : x.busId = busId) (hs : x.seatNumber = k ∨ x.seatNumber = leg),
      (x.busId == busId && (x.seatNumber == k || x.seatNumber == leg)) = true := by
    intro hb hs
    rw [Bool.and_eq_true, Bool.or_eq_true]
    refine ⟨beq_iff_eq.mpr hb, ?_⟩
    rcases hs with hs | hs
    · exact Or.inl (beq_iff_eq.mpr hs)
    · exact Or.inr (beq_iff_eq.mpr hs)
  have hbsInv : ∀ (c : Bool),
      (x.busId == busId && (x.seatNumber == k || x.seatNumber == leg) && c) = false →
      x.busId = busId → (x.seatNumber = k ∨ x.seatNumber = leg) → c = false := by
    intro c hc hb hs
    rw [Bool.and_eq_false_iff] at hc
    rcases hc with hc | hc
    · rw [hbs hb hs] at hc
      cases hc
    · exact hc
  have hbsFalse : (¬ (x.busId = busId ∧ (x.seatNumber = k ∨ x.seatNumber = leg))) →
      ∀ (c : Bool),
      (x.busId == busId && (x.seatNumber == k || x.seatNumber == leg) && c) = false := by
    intro h c
    rw [Bool.and_eq_false_iff]
    left
    rw [Bool.and_eq_false_iff]
    by_cases hb : x.busId = busId
    · right
      rw [Bool.or_eq_false_iff]
      by_cases hk : x.seatNumber = k
      · exact absurd ⟨hb, Or.inl hk⟩ h
      · by_cases hleg : x.seatNumber = leg
        · exact absurd ⟨hb, Or.inr hleg⟩ h
        · exact ⟨beq_eq_false_iff_ne.mpr hk, beq_eq_false_iff_ne.mpr hleg⟩
    · exact Or.inl (beq_eq_false_iff_ne.mpr hb)
  cases tk with
  | none =>
    rw [List.mem_filter]
    constructor
    · rintro ⟨hxL, h1⟩
      refine ⟨hxL, fun hb hs => ?_⟩
      rw [Bool.not_eq_true'] at h1
      have := hbsInv _ h1 hb hs
      rw [decide_eq_false_iff_not] at this
      exact ⟨by omega, fun t ht => by cases ht⟩
    · rintro ⟨hxL, hcond⟩
      refine ⟨hxL, ?_⟩
      rw [Bool.not_eq_true']
      by_cases hbsp : x.busId = busId ∧ (x.seatNumber = k ∨ x.seatNumber = leg)
      · obtain ⟨hact, -⟩ := hcond hbsp.1 hbsp.2
        rw [Bool.and_eq_false_iff]
        exact Or.inr (decide_eq_false (by omega))
      · exact hbsFalse hbsp _
  | some t =>
    rw [List.mem_filter, List.mem_filter]
    constructor
    · rintro ⟨⟨hxL, h1⟩, h2⟩
      refine ⟨hxL, fun hb hs => ?_⟩
      rw [Bool.not_eq_true'] at h1 h2
      have hc1 := hbsInv _ h1 hb hs
      have hc2 := hbsInv _ h2 hb hs
      rw [decide_eq_false_iff_not] at hc1
      rw [Bool.or_eq_false_iff, bne_eq_false_iff_eq] at hc2
      exact ⟨by omega, fun u hu => by cases hu; exact hc2.2⟩
    · rintro ⟨hxL, hcond⟩
      by_cases hbsp : x.busId = busId ∧ (x.seatNumber = k ∨ x.seatNumber = leg)
      · obtain ⟨hact, htrip⟩ := hcond hbsp.1 hbsp.2
        have ht := htrip t rfl
        refine ⟨⟨hxL, ?_⟩, ?_⟩
        · rw [Bool.not_eq_true', Bool.and_eq_false_iff]
          exact Or.inr (decide_eq_false (by omega))
        · rw [Bool.not_eq_true', Bool.and_eq_false_iff]
          refine Or.inr ?_
          rw [Bool.or_eq_false_iff]
          constructor
          · rw [ht]
            rfl
          · exact bne_eq_false_iff_eq.mpr ht
      · exact ⟨⟨hxL, by rw [Bool.not_eq_true']; exact hbsFalse hbsp _⟩,
          by rw [Bool.not_eq_true']; exact hbsFalse hbsp _⟩

/-- The lock handler preserves the uniqueness invariant, keeps lock seat
spellings canonical, and never touches trips, buses or bookings. -/
theorem lockSeat_preserves (db : DB) (now : Int) (busId : Nat) (seat : String)
    (tripParam : Option Nat) (lockId : Option String) (genOwner : String)
    (hids : (db.seatLocks.map (fun l => l.id)).Nodup)
    (hcanon : LocksCanonical db.seatLocks)
    (hinv : LockUniq db.seatLocks now) :
    LockUniq (handleLockSeat db now busId seat tripParam lockId genOwner).1.seatLocks now ∧
    LocksCanonical (handleLockSeat db now busId seat tripParam lockId genOwner).1.seatLocks ∧
    (handleLockSeat db now busId seat tripParam lockId genOwner).1.trips = db.trips ∧
    (handleLockSeat db now busId seat tripParam lockId genOwner).1.buses = db.buses ∧
    (handleLockSeat db now busId seat tripParam lockId genOwner).1.bookings = db.bookings := by
  have hexpTtl : now < now + lockTtl := by
    have h : lockTtl = 300 := rfl
    omega
  cases hres : resolveTripForBus db busId tripParam with
  | error e =>
    simp only [handleLockSeat, hres]
    exact ⟨hinv, hcanon, trivial, trivial, trivial⟩
  | ok trip =>
    cases hcapE : getBusCapacity db busId with
    | error e =>
      simp only [handleLockSeat, hres, hcapE]
      exact ⟨hinv, hcanon, trivial, trivial, trivial⟩
    | ok capacity =>
      cases hnorm : normalizeSeatNumberRaw seat capacity with
      | none =>
        simp only [handleLockSeat, hres, hcapE, hnorm]
        exact ⟨hinv, hcanon, trivial, trivial, trivial⟩
      | some seatKey =>
        obtain ⟨n, hsv, hn1, hnb, hkeyeq⟩ := normalizeSeatNumberRaw_eq_some hnorm
        subst hkeyeq
        have hselfnorm := normalizeSeatNumberRaw_natToString hn1 hnb
        have hsubP : ∀ leg tk, List.Sublist
            (purgeSeatLocks db.seatLocks now busId (natToString n) leg tk)
            db.seatLocks :=
          fun leg tk => purgeSeatLocks_sublist _ _ _ _ _ _
        rcases trip with _ | t
        · simp only [handleLockSeat, hres, hcapE, hnorm, Option.map_none']
          split
          · dsimp only
            exact ⟨lockUniq_sublist (hsubP _ _) hinv,
              locksCanonical_sublist (hsubP _ _) hcanon, rfl, rfl, rfl⟩
          · split
            · dsimp only
              exact ⟨lockUniq_sublist (hsubP _ _) hinv,
                locksCanonical_sublist (hsubP _ _) hcanon, rfl, rfl, rfl⟩
            · split
              next m heq =>
                dsimp only
                have hmem := List.mem_of_find?_eq_some heq
                obtain ⟨hm2, hmb, hact2, -⟩ := mem_activeLocksForBusTrip.mp hmem
                refine ⟨lockUniq_update _ now m _
                    (hids.sublist ((hsubP _ _).map _)) hm2 hact2 hexpTtl
                    (lockUniq_sublist (hsubP _ _) hinv), ?_, rfl, rfl, rfl⟩
                intro l hl
                rw [List.mem_map] at hl
                obtain ⟨x, hx, rfl⟩ := hl
                have hcx := hcanon x ((hsubP _ _).mem hx)
                by_cases hidx : (x.id == m.id) = true
                · rw [if_pos hidx]
                  exact hcx
                · rw [if_neg hidx]
                  exact hcx
              next heq =>
                dsimp only
                have hnone := List.find?_eq_none.mp heq
                refine ⟨lockUniq_insert _ now busId _ rfl ?_
                    (lockUniq_sublist (hsubP _ _) hinv) ?_, ?_, rfl, rfl, rfl⟩
                · intro cap' k hk
                  exact normalize_canonical_eq hk
                · intro x hx hxb hxact cap' hxn
                  obtain ⟨kx, hkx1, hkx2⟩ := hcanon x ((hsubP _ _).mem hx)
                  rw [hkx2] at hxn
                  have hxk : natToString n = natToString kx :=
                    normalize_canonical_eq hxn
                  refine hnone x (mem_activeLocksForBusTrip.mpr
                    ⟨hx, hxb, hxact, fun u hu => by cases hu⟩) ?_
                  rw [hkx2, ← hxk, hselfnorm]
                  exact beq_self_eq_true _
                · intro l hl
                  rcases List.mem_append.mp hl with hl | hl
                  · exact hcanon l ((hsubP _ _).mem hl)
                  · rcases List.mem_singleton.mp hl with rfl
                    exact ⟨n, hn1, rfl⟩
        · simp only [handleLockSeat, hres, hcapE, hnorm, Option.map_some']
          split
          · dsimp only
            exact ⟨lockUniq_sublist (hsubP _ _) hinv,
              locksCanonical_sublist (hsubP _ _) hcanon, rfl, rfl, rfl⟩
          · split
            · dsimp only
              exact ⟨lockUniq_sublist (hsubP _ _) hinv,
                locksCanonical_sublist (hsubP _ _) hcanon, rfl, rfl, rfl⟩
            · split
              next m heq =>
                dsimp only
                have hmem := List.mem_of_find?_eq_some heq
                obtain ⟨hm2, hmb, hact2, -⟩ := mem_activeLocksForBusTrip.mp hmem
                refine ⟨lockUniq_update _ now m _
                    (hids.sublist ((hsubP _ _).map _)) hm2 hact2 hexpTtl
                    (lockUniq_sublist (hsubP _ _) hinv), ?_, rfl, rfl, rfl⟩
                intro l hl
                rw [List.mem_map] at hl
                obtain ⟨x, hx, rfl⟩ := hl
                have hcx := hcanon x ((hsubP _ _).mem hx)
                by_cases hidx : (x.id == m.id) = true
                · rw [if_pos hidx]
                  exact hcx
                · rw [if_neg hidx]
                  exact hcx
              next heq =>
                dsimp only
                have hnone := List.find?_eq_none.mp heq
                refine ⟨lockUniq_insert _ now busId _ rfl ?_
                    (lockUniq_sublist (hsubP _ _) hinv) ?_, ?_, rfl, rfl, rfl⟩
                · intro cap' k hk
                  exact normalize_canonical_eq hk
                · intro x hx hxb hxact cap' hxn
                  obtain ⟨kx, hkx1, hkx2⟩ := hcanon x ((hsubP _ _).mem hx)
                  rw [hkx2] at hxn
                  have hxk : natToString n = natToString kx :=
                    normalize_canonical_eq hxn
                  have hxseat : x.seatNumber = natToString n := by
                    rw [hkx2, ← hxk]
                  obtain ⟨-, hcond⟩ := mem_purgeSeatLocks.mp hx
                  have hxt := (hcond hxb (Or.inl hxseat)).2 t.id rfl
                  refine hnone x (mem_activeLocksForBusTrip.mpr
                    ⟨hx, hxb, hxact, fun u hu => by cases hu; exact hxt⟩) ?_
                  rw [hxseat, hselfnorm]
                  exact beq_self_eq_true _
                · intro l hl
                  rcases List.mem_append.mp hl with hl | hl
                  · exact hcanon l ((hsubP _ _).mem hl)
                  · rcases List.mem_singleton.mp hl with rfl
                    exact ⟨n, hn1, rfl⟩

/-- Under the uniqueness invariant, a lock request for a seat that another
session holds an unexpired lock on fails with `Seat already locked by another
user`. -/
theorem lockSeat_locked_fails (db : DB) (now : Int) (busId : Nat) (seat : String)
    (tripParam : Option Nat) (lockId : Option String) (genOwner : String)
    (trip : Option Trip) (capacity : Nat) (seatKey : String) (l : SeatLock)
    (hinv : LockUniq db.seatLocks now)
    (hres : resolveTripForBus db busId tripParam = .ok trip)
    (hcap : getBusCapacity db busId = .ok capacity)
    (hnorm : normalizeSeatNumberRaw seat capacity = some seatKey)
    (hl : l ∈ activeLocksForBusTrip db.seatLocks now busId
      (Option.map (fun x => x.id) trip))
    (hnl : normalizeSeatNumberRaw l.seatNumber capacity = some seatKey)
    (howner : lockOwnerOf lockId genOwner ≠ l.lockedBy) :
    (handleLockSeat db now busId seat tripParam lockId genOwner).2 =
      .err "Seat already locked by another user" := by
  rcases trip with _ | t <;>
    obtain ⟨hlL, hlb, hlact, hlt⟩ := mem_activeLocksForBusTrip.mp hl
  · simp only [handleLockSeat, hres, hcap, hnorm, Option.map_none']
    have hlp : l ∈ purgeSeatLocks db.seatLocks now busId seatKey
        ((canonicalSeatToLegacy seatKey).getD seatKey) none :=
      mem_purgeSeatLocks.mpr ⟨hlL, fun _ _ => ⟨hlact, fun u hu => by cases hu⟩⟩
    have hlscope : l ∈ activeLocksForBusTrip (purgeSeatLocks db.seatLocks now busId
        seatKey ((canonicalSeatToLegacy seatKey).getD seatKey) none) now busId none :=
      mem_activeLocksForBusTrip.mpr ⟨hlp, hlb, hlact, fun u hu => by cases hu⟩
    rcases hfind : (activeLocksForBusTrip (purgeSeatLocks db.seatLocks now busId
        seatKey ((canonicalSeatToLegacy seatKey).getD seatKey) none) now busId
        none).find? (fun x => normalizeSeatNumberRaw x.seatNumber capacity ==
          some seatKey) with _ | m
    · exact absurd (List.find?_eq_none.mp hfind l hlscope)
        (by rw [hnl]; simp)
    · have hm := List.mem_of_find?_eq_some hfind
      have hpm := List.find?_some hfind
      have hml : m = l := countP_le_one_eq (hinv busId none seatKey capacity)
        ((activeLocks_sublist (purgeSeatLocks_sublist _ _ _ _ _ _) now busId none).mem hm)
        hl hpm (by rw [hnl]; simp)
      have hC : (m.lockedBy != lockOwnerOf lockId genOwner) = true := by
        rw [hml]
        exact bne_iff_ne.mpr (Ne.symm howner)
      simp only [hfind, hC, if_true]
  · simp only [handleLockSeat, hres, hcap, hnorm, Option.map_some']
    have hltrip : l.tripId = some t.id := hlt t.id rfl
    have hlp : l ∈ purgeSeatLocks db.seatLocks now busId seatKey
        ((canonicalSeatToLegacy seatKey).getD seatKey) (some t.id) :=
      mem_purgeSeatLocks.mpr ⟨hlL, fun _ _ => ⟨hlact, fun u hu => by cases hu; exact hltrip⟩⟩
    have hlscope : l ∈ activeLocksForBusTrip (purgeSeatLocks db.seatLocks now busId
        seatKey ((canonicalSeatToLegacy seatKey).getD seatKey) (some t.id)) now busId
        (some t.id) :=
      mem_activeLocksForBusTrip.mpr
        ⟨hlp, hlb, hlact, fun u hu => by cases hu; exact hltrip⟩
    rcases hfind : (activeLocksForBusTrip (purgeSeatLocks db.seatLocks now busId
        seatKey ((canonicalSeatToLegacy seatKey).getD seatKey) (some t.id)) now busId
        (some t.id)).find? (fun x => normalizeSeatNumberRaw x.seatNumber capacity ==
          some seatKey) with _ | m
    · exact absurd (List.find?_eq_none.mp hfind l hlscope)
        (by rw [hnl]; simp)
    · have hm := List.mem_of_find?_eq_some hfind
      have hpm := List.find?_some hfind
      have hml : m = l := countP_le_one_eq (hinv busId (some t.id) seatKey capacity)
        ((activeLocks_sublist (purgeSeatLocks_sublist _ _ _ _ _ _) now busId
          (some t.id)).mem hm)
        hl hpm (by rw [hnl]; simp)
      have hC : (m.lockedBy != lockOwnerOf lockId genOwner) = true := by
        rw [hml]
        exact bne_iff_ne.mpr (Ne.symm howner)
      simp only [hfind, hC, if_true]

/-- Inversion of a successful lock request: the trip resolved, the seat
normalized to the returned key, and the reported owner now holds an unexpired
lock on that key expiring at `now + lockTtl`. -/
theorem lockSeat_ok_inv (db : DB) (now : Int) (busId : Nat) (seat : String)
    (tripParam : Option Nat) (lockId : Option String) (genOwner : String)
    (db₁ : DB) (o : String) (tk : Option Nat) (key : String) (exp : Int)
    (h : handleLockSeat db now busId seat tripParam lockId genOwner =
      (db₁, .ok o tk key exp)) :
    ∃ trip capacity, resolveTripForBus db busId tripParam = .ok trip ∧
      tk = Option.map (fun x => x.id) trip ∧
      getBusCapacity db busId = .ok capacity ∧
      normalizeSeatNumberRaw seat capacity = some key ∧
      o = lockOwnerOf lockId genOwner ∧ exp = now + lockTtl ∧
      db₁.trips = db.trips ∧ db₁.buses = db.buses ∧
      ∃ l ∈ activeLocksForBusTrip db₁.seatLocks now busId tk,
        normalizeSeatNumberRaw l.seatNumber capacity = some key ∧
        l.lockedBy = o ∧ l.expiresAt = exp := by
  have hexpTtl : now < now + lockTtl := by
    have hTtl : lockTtl = 300 := rfl
    omega
  cases hres : resolveTripForBus db busId tripParam with
  | error e =>
    simp only [handleLockSeat, hres] at h
    simp at h
  | ok trip =>
    cases hcapE : getBusCapacity db busId with
    | error e =>
      simp only [handleLockSeat, hres, hcapE] at h
      simp at h
    | ok capacity =>
      cases hnorm : normalizeSeatNumberRaw seat capacity with
      | none =>
        simp only [handleLockSeat, hres, hcapE, hnorm] at h
        simp at h
      | some seatKey =>
        obtain ⟨n, hsv, hn1, hnb, hkeyeq⟩ := normalizeSeatNumberRaw_eq_some hnorm
        subst hkeyeq
        have hselfnorm := normalizeSeatNumberRaw_natToString hn1 hnb
        rcases trip with _ | t
        · simp only [handleLockSeat, hres, hcapE, hnorm, Option.map_none'] at h
          split at h
          · simp at h
          · rename_i hc1
            split at h
            · simp at h
            · split at h
              next m heq =>
                rw [heq] at hc1
                simp only [Bool.not_eq_true, bne_eq_false_iff_eq] at hc1
                have hm := List.mem_of_find?_eq_some heq
                obtain ⟨hm2, hmb, hact2, -⟩ := mem_activeLocksForBusTrip.mp hm
                have hpm : normalizeSeatNumberRaw m.seatNumber capacity =
                    some (natToString n) := by
                  have h0 := List.find?_some heq
                  simpa using h0
                rw [Prod.mk.injEq] at h
                obtain ⟨hdb, hok⟩ := h
                injection hok with ho htk hkey hexp
                subst ho htk hkey hexp hdb
                refine ⟨none, capacity, rfl, rfl, rfl, hnorm, rfl, rfl, rfl, rfl,
                  { m with expiresAt := now + lockTtl }, ?_, hpm, hc1, rfl⟩
                refine mem_activeLocksForBusTrip.mpr
                  ⟨List.mem_map.mpr ⟨m, hm2, by simp⟩, hmb, hexpTtl,
                    fun u hu => by cases hu⟩
              next heq =>
                rw [Prod.mk.injEq] at h
                obtain ⟨hdb, hok⟩ := h
                injection hok with ho htk hkey hexp
                subst ho htk hkey hexp hdb
                refine ⟨none, capacity, rfl, rfl, rfl, hnorm, rfl, rfl, rfl, rfl, ?_⟩
                exact ⟨_, mem_activeLocksForBusTrip.mpr
                    ⟨List.mem_append.mpr (Or.inr (List.mem_singleton.mpr rfl)),
                      rfl, hexpTtl, fun u hu => by cases hu⟩,
                  hselfnorm, rfl, rfl⟩
        · simp only [handleLockSeat, hres, hcapE, hnorm, Option.map_some'] at h
          split at h
          · simp at h
          · rename_i hc1
            split at h
            · simp at h
            · split at h
              next m heq =>
                rw [heq] at hc1
                simp only [Bool.not_eq_true, bne_eq_false_iff_eq] at hc1
                have hm := List.mem_of_find?_eq_some heq
                obtain ⟨hm2, hmb, hact2, hmt⟩ := mem_activeLocksForBusTrip.mp hm
                have hpm : normalizeSeatNumberRaw m.seatNumber capacity =
                    some (natToString n) := by
                  have h0 := List.find?_some heq
                  simpa using h0
                rw [Prod.mk.injEq] at h
                obtain ⟨hdb, hok⟩ := h
                injection hok with ho htk hkey hexp
                subst ho htk hkey hexp hdb
                refine ⟨some t, capacity, rfl, rfl, rfl, hnorm, rfl, rfl, rfl, rfl,
                  { m with expiresAt := now + lockTtl }, ?_, hpm, hc1, rfl⟩
                refine mem_activeLocksForBusTrip.mpr
                  ⟨List.mem_map.mpr ⟨m, hm2, by simp⟩, hmb, hexpTtl,
                    fun u hu => by cases hu; exact hmt t.id rfl⟩
              next heq =>
                rw [Prod.mk.injEq] at h
                obtain ⟨hdb, hok⟩ := h
                injection hok with ho htk hkey hexp
                subst ho htk hkey hexp hdb
                refine ⟨some t, capacity, rfl, rfl, rfl, hnorm, rfl, rfl, rfl, rfl, ?_⟩
                exact ⟨_, mem_activeLocksForBusTrip.mpr
                    ⟨List.mem_append.mpr (Or.inr (List.mem_singleton.mpr rfl)),
                      rfl, hexpTtl, fun u hu => by cases hu; rfl⟩,
                  hselfnorm, rfl, rfl⟩

/-- C2: the seat-lock exclusivity properties.  Under the lock-table invariant
(at most one unexpired lock per bus/trip-scope/normalized seat, canonical
spellings, unique row ids): (1) any lock request preserves the invariant;
(2) a request for a seat on which a different session holds an unexpired lock
fails with `Seat already locked by another user`; (3) of two lock attempts on
the same seat by sessions with different lock ids, exactly one succeeds — if
the first succeeded, the second fails with `SeatAlreadyLocked` as long as the
first lock has not expired. -/
theorem lockSeat_exclusivity (db : DB) (now : Int) (busId : Nat) (seat : String)
    (tripParam : Option Nat) (lockId : Option String) (genOwner : String)
    (hids : (db.seatLocks.map (fun l => l.id)).Nodup)
    (hcanon : LocksCanonical db.seatLocks)
    (hinv : LockUniq db.seatLocks now) :
    LockUniq (handleLockSeat db now busId seat tripParam lockId genOwner).1.seatLocks
      now ∧
    (∀ trip capacity seatKey l,
      resolveTripForBus db busId tripParam = .ok trip →
      getBusCapacity db busId = .ok capacity →
      normalizeSeatNumberRaw seat capacity = some seatKey →
      l ∈ activeLocksForBusTrip db.seatLocks now busId
        (Option.map (fun x => x.id) trip) →
      normalizeSeatNumberRaw l.seatNumber capacity = some seatKey →
      lockOwnerOf lockId genOwner ≠ l.lockedBy →
      (handleLockSeat db now busId seat tripParam lockId genOwner).2 =
        .err "Seat already locked by another user") ∧
    (∀ db₁ o tk key exp now₂ lockId₂ genOwner₂,
      handleLockSeat db now busId seat tripParam lockId genOwner =
        (db₁, .ok o tk key exp) →
      now ≤ now₂ → now₂ < exp →
      lockOwnerOf lockId₂ genOwner₂ ≠ o →
      (handleLockSeat db₁ now₂ busId seat tripParam lockId₂ genOwner₂).2 =
        .err "Seat already locked by another user") := by
  refine ⟨(lockSeat_preserves db now busId seat tripParam lockId genOwner
    hids hcanon hinv).1, ?_, ?_⟩
  · intro trip capacity seatKey l h1 h2 h3 h4 h5 h6
    exact lockSeat_locked_fails db now busId seat tripParam lockId genOwner
      trip capacity seatKey l hinv h1 h2 h3 h4 h5 h6
  · intro db₁ o tk key exp now₂ lockId₂ genOwner₂ hok hle hlt₂ hneq
    obtain ⟨trip, capacity, hres, htk, hcap, hkeynorm, ho, hexp, htrips, hbuses,
      l, hl, hnl, hlo, hlex⟩ :=
      lockSeat_ok_inv db now busId seat tripParam lockId genOwner
        db₁ o tk key exp hok
    subst htk
    have hinv₁ := (lockSeat_preserves db now busId seat tripParam lockId genOwner
      hids hcanon hinv).1
    rw [hok] at hinv₁
    have hinv₂ : LockUniq db₁.seatLocks now₂ := lockUniq_mono hle hinv₁
    have hres₁ : resolveTripForBus db₁ busId tripParam = .ok trip := by
      rw [resolveTripForBus_congr htrips, hres]
    have hcap₁ : getBusCapacity db₁ busId = .ok capacity := by
      rw [getBusCapacity_congr hbuses, hcap]
    obtain ⟨hlL, hlb, hlact, hltk⟩ := mem_activeLocksForBusTrip.mp hl
    have hl₂ : l ∈ activeLocksForBusTrip db₁.seatLocks now₂ busId
        (Option.map (fun x => x.id) trip) :=
      mem_activeLocksForBusTrip.mpr ⟨hlL, hlb, by rw [hlex]; exact hlt₂, hltk⟩
    refine lockSeat_locked_fails db₁ now₂ busId seat tripParam lockId₂ genOwner₂
      trip capacity key l hinv₂ hres₁ hcap₁ hkeynorm hl₂ hnl ?_
    rw [hlo]
    exact hneq

/-! ### C1: booking uniqueness -/

/-- A confirmed booking row occupying the canonical seat `n` of
`(busId, COALESCE(tripId, -1))`, in either the canonical or the legacy
spelling. -/
def bookingKeyP (busId : Nat) (tid : Option Nat) (n : Nat) (b : Booking) : Bool :=
  b.busId == busId && tripCoalesce b.tripId == tripCoalesce tid &&
  (b.seatNumber == natToString n || b.seatNumber == legacyOf n) &&
  b.status == "confirmed"

/-- The booking-table invariant: every bus, trip (the null trip included) and
canonical seat has at most one confirmed booking row. -/
def BookingUniq (bookings : List Booking) : Prop :=
  ∀ busId tid n, bookings.countP (bookingKeyP busId tid n) ≤ 1

theorem bookingUniq_sublist {B B' : List Booking} (h : List.Sublist B' B)
    (hinv : BookingUniq B) : BookingUniq B' :=
  fun busId tid n => le_trans (h.countP_le _) (hinv busId tid n)

/-- The conditional insert of a canonical-seat payload preserves the
booking-table invariant: the `WHERE NOT EXISTS` clause checks exactly the two
spellings of the inserted seat. -/
theorem bookingUniq_insert (d : DB) (p : BookingInsertPayload) (n₀ : Nat)
    (hseat : p.seatNumber = natToString n₀)
    (hleg : p.legacySeatNumber.getD p.seatNumber = legacyOf n₀)
    (hinv : BookingUniq d.bookings) :
    BookingUniq (insertConfirmedBookingAtomic d p).1.bookings := by
  by_cases hc : bookingConflictExists d.bookings p.busId p.tripId p.seatNumber
      (p.legacySeatNumber.getD p.seatNumber) = true
  · rw [insertConfirmedBookingAtomic_refused d p hc]
    exact hinv
  · rw [Bool.not_eq_true] at hc
    rw [insertConfirmedBookingAtomic_inserted d p hc]
    intro busId tid n
    rw [List.countP_append]
    have hone : List.countP (bookingKeyP busId tid n) [newBooking d p] ≤ 1 := by
      refine le_trans (List.countP_le_length _) ?_
      simp
    by_cases hpos : 0 < List.countP (bookingKeyP busId tid n) [newBooking d p]
    · obtain ⟨x, hx, hpx⟩ := List.countP_pos_iff.mp hpos
      rw [List.mem_singleton] at hx
      subst hx
      unfold bookingKeyP newBooking at hpx
      simp only [Bool.and_eq_true, beq_iff_eq, Bool.or_eq_true] at hpx
      obtain ⟨⟨⟨hb, ht⟩, hs⟩, -⟩ := hpx
      have hnn : n = n₀ := by
        rcases hs with hs | hs
        · rw [hseat] at hs
          exact (natToString_injective hs).symm
        · rw [hseat] at hs
          exact absurd hs (natToString_ne_legacyOf n₀ n)
      subst hnn
      have hzero : List.countP (bookingKeyP busId tid n) d.bookings = 0 := by
        rw [List.countP_eq_zero]
        intro b hbmem hpb
        unfold bookingConflictExists at hc
        rw [List.any_eq_false] at hc
        refine absurd ?_ (hc b hbmem)
        unfold bookingKeyP at hpb
        simp only [Bool.and_eq_true, beq_iff_eq, Bool.or_eq_true] at hpb
        obtain ⟨⟨⟨hbb, hbt⟩, hbs⟩, hbst⟩ := hpb
        simp only [Bool.and_eq_true, beq_iff_eq, Bool.or_eq_true]
        refine ⟨⟨⟨by rw [hbb, hb], by rw [hbt, ht]⟩, ?_⟩, hbst⟩
        rcases hbs with hbs | hbs
        · exact Or.inl (by rw [hbs, ← hseat])
        · exact Or.inr (by rw [hbs, ← hleg])
      rw [hzero]
      omega
    · have hz : List.countP (bookingKeyP busId tid n) [newBooking d p] = 0 := by
        omega
      rw [hz]
      have := hinv busId tid n
      omega

/-- Every key produced by the seat-collection loop is a canonical seat
string. -/
theorem collectSeatKeys_canonical (capacity : Nat) :
    ∀ (raws acc keys : List String),
      collectSeatKeys capacity raws acc = some keys →
      (∀ k ∈ acc, ∃ n, 1 ≤ n ∧ k = natToString n) →
      ∀ k ∈ keys, ∃ n, 1 ≤ n ∧ k = natToString n := by
  intro raws
  induction raws with
  | nil =>
    intro acc keys h hacc
    unfold collectSeatKeys at h
    injection h with h
    subst h
    exact hacc
  | cons r rest ih =>
    intro acc keys h hacc
    unfold collectSeatKeys at h
    cases hn : normalizeSeatNumberRaw r capacity with
    | none =>
      rw [hn] at h
      cases h
    | some kr =>
      rw [hn] at h
      refine ih _ keys h ?_
      intro k hk
      by_cases hc : acc.contains kr
      · rw [if_pos hc] at hk
        exact hacc k hk
      · rw [if_neg hc] at hk
        rcases List.mem_append.mp hk with hk | hk
        · exact hacc k hk
        · rcases List.mem_singleton.mp hk with rfl
          obtain ⟨n, -, hn1, -, rfl⟩ := normalizeSeatNumberRaw_eq_some hn
          exact ⟨n, hn1, rfl⟩

/-- The per-seat insert loop preserves the booking-table invariant when all
requested keys are canonical. -/
theorem bookingUniq_insertSeatsLoop (busId : Nat) (tripKey : Option Nat)
    (passengerId : Nat) (perSeatPaid : Rat) (ref : String) (single : Bool) :
    ∀ (keys : List String) (db : DB) (created : List Nat),
      (∀ k ∈ keys, ∃ n, 1 ≤ n ∧ k = natToString n) →
      BookingUniq db.bookings →
      BookingUniq (insertSeatsLoop busId tripKey passengerId perSeatPaid ref
        single db keys created).1.bookings := by
  intro keys
  induction keys with
  | nil => intro db created _ hinv; exact hinv
  | cons k rest ih =>
    intro db created hkeys hinv
    obtain ⟨n, hn1, rfl⟩ := hkeys k (List.mem_cons_self k rest)
    have hinv' : BookingUniq (insertConfirmedBookingAtomic db
        (seatPayload busId tripKey passengerId perSeatPaid ref single
          (natToString n))).1.bookings := by
      refine bookingUniq_insert db _ n rfl ?_ hinv
      unfold seatPayload
      simp only [Option.getD_some]
      rw [canonicalSeatToLegacy_natToString hn1]
      rfl
    rw [insertSeatsLoop_cons]
    rcases hins : insertConfirmedBookingAtomic db
        (seatPayload busId tripKey passengerId perSeatPaid ref single
          (natToString n)) with ⟨db', obid⟩
    rw [hins] at hinv'
    cases obid with
    | some bid =>
      exact ih db' (created ++ [bid])
        (fun k hk => hkeys k (List.mem_cons_of_mem _ hk)) hinv'
    | none =>
      exact bookingUniq_sublist (List.filter_sublist _) hinv'

theorem bookingUniq_insertSeatsLoop_eq (busId : Nat) (tripKey : Option Nat)
    (passengerId : Nat) (perSeatPaid : Rat) (ref : String) (single : Bool)
    (keys : List String) (dbL : DB) (created : List Nat)
    (out : DB × Except String (List Nat))
    (heq : insertSeatsLoop busId tripKey passengerId perSeatPaid ref single
      dbL keys created = out)
    (hkeys : ∀ k ∈ keys, ∃ n, 1 ≤ n ∧ k = natToString n)
    (hinv : BookingUniq dbL.bookings) :
    BookingUniq out.1.bookings :=
  heq ▸ bookingUniq_insertSeatsLoop busId tripKey passengerId perSeatPaid ref
    single keys dbL created hkeys hinv

theorem saveReceiptForBooking_bookings (db : DB) (bookingId : Nat) (url : String) :
    (saveReceiptForBooking db bookingId url).bookings = db.bookings := by
  unfold saveReceiptForBooking
  split <;> rfl

theorem receiptsFoldl_bookings (url : String) :
    ∀ (ids : List Nat) (db : DB),
      (ids.foldl (fun acc bid => saveReceiptForBooking acc bid url) db).bookings =
        db.bookings := by
  intro ids
  induction ids with
  | nil => intro db; rfl
  | cons i t ih =>
    intro db
    rw [List.foldl_cons, ih, saveReceiptForBooking_bookings]

theorem updateAvailableSeats_bookings (db : DB) (busId : Nat) (tripKey : Nat) :
    (updateAvailableSeats db busId tripKey).bookings = db.bookings := rfl

/-- `handleBookingConfirm` preserves the booking-table invariant on every
path. -/
theorem bookingUniq_confirm (db : DB) (now : Int) (data : ConfirmData)
    (verification : Except String VerifyResult) (gas : Option String)
    (hinv : BookingUniq db.bookings) :
    BookingUniq (handleBookingConfirm db now data verification gas).1.bookings := by
  cases hres : resolveTripForBus db data.busId data.tripId with
  | error e =>
    simp only [handleBookingConfirm, hres]
    exact hinv
  | ok trip =>
    cases hcap : getBusCapacity db data.busId with
    | error e =>
      simp only [handleBookingConfirm, hres, hcap]
      exact hinv
    | ok capacity =>
      rcases trip with _ | t <;>
        [simp only [handleBookingConfirm, hres, hcap, Option.map_none'];
         simp only [handleBookingConfirm, hres, hcap, Option.map_some']] <;>
      · split
        · exact hinv
        · split
          · exact hinv
          · next seatKeys hkeys =>
            have hck : ∀ k ∈ seatKeys, ∃ n, 1 ≤ n ∧ k = natToString n :=
              collectSeatKeys_canonical capacity _ [] seatKeys hkeys
                (fun k hk => absurd hk (List.not_mem_nil k))
            split
            · exact hinv
            · split
              · exact hinv
              · split
                · exact hinv
                · next v =>
                  split
                  · exact hinv
                  · split
                    · exact hinv
                    · split
                      · exact hinv
                      · next ownedLocks hlocks =>
                        split
                        next db2 seatKey heqloop =>
                          exact bookingUniq_insertSeatsLoop_eq _ _ _ _ _ _ _ _ _ _
                            heqloop hck hinv
                        next db2 createdIds heqloop =>
                          rcases gas with _ | url
                          · exact bookingUniq_insertSeatsLoop_eq _ _ _ _ _ _ _ _ _ _
                              heqloop hck hinv
                          · rw [receiptsFoldl_bookings]
                            exact bookingUniq_insertSeatsLoop_eq _ _ _ _ _ _ _ _ _ _
                              heqloop hck hinv

theorem bookingUniq_insert_eq (d : DB) (p : BookingInsertPayload) (n₀ : Nat)
    (out : DB × Option Nat)
    (heq : insertConfirmedBookingAtomic d p = out)
    (hseat : p.seatNumber = natToString n₀)
    (hleg : p.legacySeatNumber.getD p.seatNumber = legacyOf n₀)
    (hinv : BookingUniq d.bookings) :
    BookingUniq out.1.bookings :=
  heq ▸ bookingUniq_insert d p n₀ hseat hleg hinv

/-- `handleAdminManualBooking` preserves the booking-table invariant on every
path. -/
theorem bookingUniq_admin (db : DB) (now : Int) (adminEmailsCfg : String)
    (token : Option String) (data : ManualBookingData) (extRef : String)
    (gas : Option String)
    (hinv : BookingUniq db.bookings) :
    BookingUniq (handleAdminManualBooking db now adminEmailsCfg token data
      extRef gas).1.bookings := by
  cases hsess : getSessionUser db now token with
  | error e =>
    simp only [handleAdminManualBooking, hsess]
    exact hinv
  | ok user =>
    simp only [handleAdminManualBooking, hsess]
    split
    · exact hinv
    · split
      · exact hinv
      · split
        · exact hinv
        · next bus hbus =>
          split
          · exact hinv
          · next trip hres =>
            rcases trip with _ | t <;>
              [simp only [Option.map_none']; simp only [Option.map_some']] <;>
            · split
              · exact hinv
              · next seatKey hnorm =>
                obtain ⟨n, hsv, hn1, hnb, hkeyeq⟩ :=
                  normalizeSeatNumberRaw_eq_some hnorm
                subst hkeyeq
                split <;>
                · split
                  · exact hinv
                  · split
                    · exact hinv
                    · split
                      next db2 heqins =>
                        exact bookingUniq_insert_eq _ _ n _ heqins rfl
                          (by
                            simp only [Option.getD_some]
                            rw [canonicalSeatToLegacy_natToString hn1]
                            rfl)
                          hinv
                      next db2 bid heqins =>
                        rcases gas with _ | url
                        · exact bookingUniq_insert_eq _ _ n _ heqins rfl
                            (by
                              simp only [Option.getD_some]
                              rw [canonicalSeatToLegacy_natToString hn1]
                              rfl)
                            hinv
                        · have hsave : BookingUniq
                              (saveReceiptForBooking db2 bid url).bookings := by
                            rw [saveReceiptForBooking_bookings]
                            exact bookingUniq_insert_eq _ _ n _ heqins rfl
                              (by
                                simp only [Option.getD_some]
                                rw [canonicalSeatToLegacy_natToString hn1]
                                rfl)
                              hinv
                          exact hsave

/-- C1: booking uniqueness.  Under the booking-table invariant (at most one
confirmed row per bus, trip — the null trip included — and canonical seat in
either spelling): the conditional insert preserves it and refuses exactly when
a confirmed booking for the same `(bus, COALESCE(trip_id,-1), seat)` in
canonical or legacy form already exists; and both booking writers — customer
finalization and admin manual booking — preserve it on every path. -/
theorem bookingUniq_preserved (db : DB) (hinv : BookingUniq db.bookings) :
    (∀ (p : BookingInsertPayload) (n₀ : Nat),
      p.seatNumber = natToString n₀ →
      p.legacySeatNumber.getD p.seatNumber = legacyOf n₀ →
      BookingUniq (insertConfirmedBookingAtomic db p).1.bookings ∧
      ((insertConfirmedBookingAtomic db p).2 = none ↔
        bookingConflictExists db.bookings p.busId p.tripId p.seatNumber
          (p.legacySeatNumber.getD p.seatNumber) = true)) ∧
    (∀ now data verification gas,
      BookingUniq (handleBookingConfirm db now data verification gas).1.bookings) ∧
    (∀ now adminEmailsCfg token mdata extRef gas,
      BookingUniq (handleAdminManualBooking db now adminEmailsCfg token mdata
        extRef gas).1.bookings) := by
  refine ⟨?_, ?_, ?_⟩
  · intro p n₀ hseat hleg
    refine ⟨bookingUniq_insert db p n₀ hseat hleg hinv, ?_⟩
    unfold insertConfirmedBookingAtomic
    by_cases hc : bookingConflictExists db.bookings p.busId p.tripId p.seatNumber
        (p.legacySeatNumber.getD p.seatNumber) = true
    · rw [if_pos hc]
      simp [hc]
    · rw [if_neg hc]
      simp only [Bool.not_eq_true] at hc
      simp [hc]
  · intro now data verification gas
    exact bookingUniq_confirm db now data verification gas hinv
  · intro now cfg token mdata extRef gas
    exact bookingUniq_admin db now cfg token mdata extRef gas hinv

/-- A one-bus, one-active-trip database with an empty lock table. -/
def lockDB : DB :=
  { routes := [{ id := 1, name := "Accra Kumasi" }],
    buses := [{ id := 1, routeId := some 1, name := "Elite 1", capacity := 4,
                availableSeats := 4, price := 50 }],
    trips := [{ id := 9, routeId := 1, busId := 1, price := 50,
                status := "active" }],
    passengers := [], users := [], sessions := [], bookings := [],
    seatLocks := [], receipts := [], nextBookingId := 1, nextPassengerId := 1,
    nextLockId := 1, nextUserId := 1 }

/-- `lockDB` after alice locked seat 3 at time 100. -/
def lockDB2 : DB :=
  { lockDB with
    seatLocks := [{ id := 1, busId := 1, tripId := some 9, seatNumber := "3",
                    lockedBy := "alice", expiresAt := 400 }],
    nextLockId := 2 }

/-- Witness for `lockSeat_exclusivity`: alice locks seat 3 at time 100; bob's
attempt on the same seat at time 130 is rejected. -/
theorem lockSeat_exclusivity_witness :
    (handleLockSeat lockDB2 130 1 "3" none (some "bob") "g2").2 =
      .err "Seat already locked by another user" :=
  (lockSeat_exclusivity lockDB 100 1 "3" none (some "alice") "g"
      (by simp [lockDB])
      (fun l hl => absurd hl (List.not_mem_nil l))
      (by
        intro b tk k c
        unfold lockScopeCount activeLocksForBusTrip lockDB
        cases tk <;> simp)).2.2
    lockDB2 "alice" (some 9) "3" 400 130 (some "bob") "g2"
    (by rfl) (by decide) (by decide) (by decide)

/-- Witness for `bookingUniq_preserved`: the empty-bookings store, a canonical
seat-2 payload, a full confirm request and an admin manual booking. -/
theorem bookingUniq_preserved_witness :
    (BookingUniq (insertConfirmedBookingAtomic lockDB
        { passengerId := 1, busId := 1, tripId := none, seatNumber := "2",
          legacySeatNumber := some "A2", pricePaid := 50,
          externalRef := "R" }).1.bookings ∧
      ((insertConfirmedBookingAtomic lockDB
        { passengerId := 1, busId := 1, tripId := none, seatNumber := "2",
          legacySeatNumber := some "A2", pricePaid := 50,
          externalRef := "R" }).2 = none ↔
        bookingConflictExists lockDB.bookings 1 none "2"
          ((some "A2").getD "2") = true)) ∧
    BookingUniq (handleBookingConfirm lockDB 0 confirmReq
      (.ok { status := "success", amountKobo := 5000 }) none).1.bookings ∧
    BookingUniq (handleAdminManualBooking lockDB 0 "" none
      { firstName := "Ama", lastName := "Mensah", email := "a@b.c",
        phone := "0551", nokName := none, nokPhone := none, busId := 1,
        seat := "2", pricePaid := none, tripId := none }
      "admin_manual_1" none).1.bookings := by
  have hinv : BookingUniq lockDB.bookings := by
    intro busId tid n
    simp [lockDB]
  exact ⟨(bookingUniq_preserved lockDB hinv).1
      { passengerId := 1, busId := 1, tripId := none, seatNumber := "2",
        legacySeatNumber := some "A2", pricePaid := 50, externalRef := "R" }
      2 (by decide) (by decide),
    (bookingUniq_preserved lockDB hinv).2.1 0 confirmReq
      (.ok { status := "success", amountKobo := 5000 }) none,
    (bookingUniq_preserved lockDB hinv).2.2 0 "" none
      { firstName := "Ama", lastName := "Mensah", email := "a@b.c",
        phone := "0551", nokName := none, nokPhone := none, busId := 1,
        seat := "2", pricePaid := none, tripId := none }
      "admin_manual_1" none⟩

end EliteHub
